import Mathlib

/-!
Verification of the `rescue-install` configuration parser (`config_parser.py`)
and progress reporter (`progress_reporter.py`).

The Python code is shallowly embedded: strings are Lean `String`s (lists of
characters), Python `re.match` calls against the three concrete anchored
patterns are modelled as executable character-list predicates that follow
CPython semantics (in particular, `$` also matches just before a single
trailing newline), exceptions become `Except String`, and `time.time()`
becomes an explicit timestamp argument.
-/

namespace RescueInstall

/-! ### Python string primitives -/

/-- Characters treated as whitespace by Python `str.strip()`/`str.split()`
with no arguments: exactly the code points with `str.isspace()` true in
CPython (U+0009–U+000D, U+001C–U+001F, U+0020, U+0085, U+00A0, U+1680,
U+2000–U+200A, U+2028, U+2029, U+202F, U+205F, U+3000). -/
def isPySpace (c : Char) : Bool :=
  (9 ≤ c.toNat && c.toNat ≤ 13) || (28 ≤ c.toNat && c.toNat ≤ 32) ||
  c.toNat = 133 || c.toNat = 160 || c.toNat = 5760 ||
  (8192 ≤ c.toNat && c.toNat ≤ 8202) || c.toNat = 8232 || c.toNat = 8233 ||
  c.toNat = 8239 || c.toNat = 8287 || c.toNat = 12288

/-- Characters stripped by Python `str.strip('"'')`: double or single quote. -/
def isQuoteChar (c : Char) : Bool :=
  c = '"' || c = Char.ofNat 39

/-- Drop leading characters satisfying `p` (left part of Python `strip`). -/
def trimLeftP (p : Char → Bool) (l : List Char) : List Char :=
  l.dropWhile p

/-- Drop trailing characters satisfying `p` (right part of Python `strip`). -/
def trimRightP (p : Char → Bool) (l : List Char) : List Char :=
  (l.reverse.dropWhile p).reverse

/-- Python `str.strip(chars)` on a character list: drop from both ends. -/
def trimP (p : Char → Bool) (l : List Char) : List Char :=
  trimRightP p (trimLeftP p l)

/-- Python `value.strip()`. -/
def pyStrip (s : String) : String :=
  String.mk (trimP isPySpace s.data)

/-- Python `value.strip('"'')`. -/
def pyStripQuotes (s : String) : String :=
  String.mk (trimP isQuoteChar s.data)

/-- Python `s.startswith(p)` (exact prefix test on characters). -/
def pyStartsWith (s p : String) : Bool :=
  p.data.isPrefixOf s.data

/-- Split a character list at every separator satisfying `p`, keeping empty
pieces; models Python `str.split(sep)` for a one-character `sep`. -/
def splitP (p : Char → Bool) : List Char → List (List Char)
  | [] => [[]]
  | c :: rest =>
    if p c then [] :: splitP p rest
    else
      match splitP p rest with
      | [] => [[c]]
      | t :: ts => (c :: t) :: ts

/-- Python `str.split()` with no arguments: split on whitespace runs,
dropping empty pieces. -/
def wsTokens (l : List Char) : List (List Char) :=
  (splitP isPySpace l).filter (fun t => t ≠ [])

/-- Python `sep.join(strings)` for a one-character separator, on lists. -/
def joinChars (sep : Char) : List (List Char) → List Char
  | [] => []
  | [x] => x
  | x :: xs => x ++ sep :: joinChars sep xs

/-- Python `sep.join(strings)` for a one-character separator. -/
def joinSep (sep : Char) (l : List String) : String :=
  String.mk (joinChars sep (l.map String.data))

/-- Numeric value of a decimal digit string (most significant first). -/
def digitsToNat (l : List Char) : Nat :=
  l.foldl (fun a c => 10 * a + (c.toNat - 48)) 0

/-- Python `int(value)` in base 10: optional surrounding whitespace, an
optional sign, then one or more decimal digits. -/
def pyParseInt (v : String) : Except String Int :=
  match trimP isPySpace v.data with
  | '-' :: rest =>
    if rest ≠ [] && rest.all Char.isDigit then .ok (-(digitsToNat rest : Int))
    else .error ("invalid literal for int with base 10: " ++ v)
  | '+' :: rest =>
    if rest ≠ [] && rest.all Char.isDigit then .ok ((digitsToNat rest : Int))
    else .error ("invalid literal for int with base 10: " ++ v)
  | t =>
    if t ≠ [] && t.all Char.isDigit then .ok ((digitsToNat t : Int))
    else .error ("invalid literal for int with base 10: " ++ v)

/-- ASCII lowercase of one character, as Python `str.lower` maps it. -/
def pyLowerChar (c : Char) : Char :=
  if 65 ≤ c.toNat && c.toNat ≤ 90 then Char.ofNat (c.toNat + 32) else c

/-- Python `value.lower() in ['1', 'true', 'yes', 'on']`. -/
def pyParseBool (v : String) : Bool :=
  ["1", "true", "yes", "on"].contains (String.mk (v.data.map pyLowerChar))

/-! ### The three regular expressions of `config_parser.py`

CPython `re.match(pat, s)` with a `$`-anchored `pat` succeeds on `s` exactly
when the pattern body matches either all of `s` or all of `s` minus a single
trailing newline, because `$` also matches just before a terminal `'\n'`.
`chompNl` removes that optionally-matched trailing newline. -/

/-- Remove one trailing newline if present (the position where `$` may
match inside a string that ends with `'\n'`). -/
def chompNl (l : List Char) : List Char :=
  if l.getLast? = some '\n' then l.dropLast else l

/-- `re.match(r'^[‹class›]+$', s)` for a character class `p`. -/
def pyMatchClassLine (p : Char → Bool) (s : String) : Bool :=
  let t := chompNl s.data
  t ≠ [] && t.all p

/-- Character class `[a-zA-Z0-9-]` used for hostnames. -/
def isHostnameChar (c : Char) : Bool :=
  c.isAlpha || c.isDigit || c = '-'

/-- Character class `[a-zA-Z0-9_-]` used for pool names. -/
def isPoolChar (c : Char) : Bool :=
  c.isAlpha || c.isDigit || c = '_' || c = '-'

/-- `re.match(r'.*p\d+$', s)`: some prefix without newlines, then `'p'`
followed by one or more digits at the (possibly newline-chomped) end. -/
def matchesNvmePartition (s : String) : Bool :=
  let t := chompNl s.data
  t.all (fun c => c ≠ '\n') &&
    (let r := t.reverse
     let ds := r.takeWhile Char.isDigit
     ds ≠ [] && (r.drop ds.length).head? = some 'p')

/-- `re.match(r'^/dev/[sv]d[a-z]\d+$', s)`. -/
def matchesSataPartition (s : String) : Bool :=
  match chompNl s.data with
  | '/' :: 'd' :: 'e' :: 'v' :: '/' :: c1 :: 'd' :: c2 :: ds =>
    (c1 = 's' || c1 = 'v') && (97 ≤ c2.toNat && c2.toNat ≤ 122) &&
      (ds ≠ [] && ds.all Char.isDigit)
  | _ => false

/-! ### `ZFSConfig`: fields, defaults and validation -/

/-- The `ZFSConfig` dataclass: fields in declaration order with their
declared defaults. -/
structure ZFSConfig where
  disk : String := "/dev/sda"
  hostname : String := "mail1"
  timezone : String := "UTC"
  pool_root : String := "rpool"
  pool_boot : String := "bpool"
  arc_max_mb : Int := 2048
  encrypt : Bool := false
  ci_datasources : List String := ["ConfigDrive", "NoCloud", "Ec2"]
  force : Bool := false
  new_user : Option String := none
  new_user_sudo : Bool := true
  ssh_import_ids : List String := []
  ssh_authorized_keys : List String := []
  ssh_authorized_keys_urls : List String := []
  permit_root_login : String := "prohibit-password"
  password_auth : Bool := false
deriving DecidableEq

/-- The all-defaults configuration `ZFSConfig()`. -/
def defaultConfig : ZFSConfig := {}

/-- `ZFSConfig._validate_disk`. -/
def validateDisk (disk : String) : Except String Unit :=
  if !(pyStartsWith disk "/dev/") then
    .error ("Invalid disk path: " ++ disk)
  else if matchesNvmePartition disk || matchesSataPartition disk then
    .error ("DISK=" ++ disk ++
      " appears to be a partition. Please specify the whole disk.")
  else .ok ()

/-- `ZFSConfig._validate_hostname`. -/
def validateHostname (hostname : String) : Except String Unit :=
  if !(pyMatchClassLine isHostnameChar hostname) then
    .error ("Invalid hostname: " ++ hostname)
  else if hostname.length > 63 then
    .error ("Hostname too long: " ++ hostname)
  else .ok ()

/-- `ZFSConfig._validate_pools`: both pool names in order, then the ARC
lower bound. -/
def validatePools (pool_root pool_boot : String) (arc_max_mb : Int) :
    Except String Unit :=
  if !(pyMatchClassLine isPoolChar pool_root) then
    .error ("Invalid pool name: " ++ pool_root)
  else if !(pyMatchClassLine isPoolChar pool_boot) then
    .error ("Invalid pool name: " ++ pool_boot)
  else if arc_max_mb < 64 then
    .error ("ARC max too small: " ++ toString arc_max_mb ++ "MB")
  else .ok ()

/-- `ZFSConfig._validate_ssh_config`. -/
def validateSshConfig (permit_root_login : String) : Except String Unit :=
  if ["yes", "no", "prohibit-password"].contains permit_root_login then .ok ()
  else .error ("Invalid permit_root_login: " ++ permit_root_login)

/-- `ZFSConfig.__post_init__`: run the four validators in their fixed order,
stopping at (and raising) the first failure; on success the constructed
instance is the given field record. -/
def mkZFSConfig (c : ZFSConfig) : Except String ZFSConfig :=
  match validateDisk c.disk with
  | .error e => .error e
  | .ok _ =>
    match validateHostname c.hostname with
    | .error e => .error e
    | .ok _ =>
      match validatePools c.pool_root c.pool_boot c.arc_max_mb with
      | .error e => .error e
      | .ok _ =>
        match validateSshConfig c.permit_root_login with
        | .error e => .error e
        | .ok _ => .ok c

/-! ### Loading: `_parse_value`, `from_env_file`, environment overlay -/

/-- The comma branch of `_parse_value` for list fields, applied to a value
wrapped in `[`…`]`: `[item.strip().strip('"'') for item in value[1:-1].split(',')
if item.strip()]`. -/
def commaItems (v : String) : List String :=
  (((splitP (fun c => c = ',') ((v.data.drop 1).dropLast)).filter
    (fun i => trimP isPySpace i ≠ [])).map
    (fun i => String.mk (trimP isQuoteChar (trimP isPySpace i))))

/-- The whitespace branch of `_parse_value` for list fields:
`[item.strip().strip('"'') for item in value.split() if item.strip()]`. -/
def wsItems (v : String) : List String :=
  (((wsTokens v.data).filter (fun i => trimP isPySpace i ≠ [])).map
    (fun i => String.mk (trimP isQuoteChar (trimP isPySpace i))))

/-- `_parse_value` for list fields: empty string, YAML-style `[`…`]`, or
whitespace-separated. -/
def pyParseList (v : String) : List String :=
  if v = "" then []
  else if v.data.head? = some '[' && v.data.getLast? = some ']' then
    commaItems v
  else
    wsItems v

/-- The key→field table of `_env_to_field_name` / `_get_env_mapping`
(both methods list identical pairs, in this order). -/
def envMapping : List (String × String) :=
  [("DISK", "disk"), ("HOSTNAME", "hostname"), ("TZ", "timezone"),
   ("POOL_R", "pool_root"), ("POOL_B", "pool_boot"),
   ("ARC_MAX_MB", "arc_max_mb"), ("ENCRYPT", "encrypt"), ("FORCE", "force"),
   ("NEW_USER", "new_user"), ("NEW_USER_SUDO", "new_user_sudo"),
   ("SSH_IMPORT_IDS", "ssh_import_ids"),
   ("SSH_AUTHORIZED_KEYS", "ssh_authorized_keys"),
   ("SSH_AUTHORIZED_KEYS_URLS", "ssh_authorized_keys_urls"),
   ("PERMIT_ROOT_LOGIN", "permit_root_login"),
   ("PASSWORD_AUTH", "password_auth"), ("CI_DATASOURCES", "ci_datasources")]

/-- `ZFSConfig._env_to_field_name`. -/
def envToFieldName (k : String) : Option String :=
  envMapping.lookup k

/-- The `config_dict` accumulated by `from_env_file`: per config field, the
parsed value if the key has been assigned. -/
structure RawConfig where
  disk : Option String := none
  hostname : Option String := none
  timezone : Option String := none
  pool_root : Option String := none
  pool_boot : Option String := none
  arc_max_mb : Option Int := none
  encrypt : Option Bool := none
  ci_datasources : Option (List String) := none
  force : Option Bool := none
  new_user : Option (Option String) := none
  new_user_sudo : Option Bool := none
  ssh_import_ids : Option (List String) := none
  ssh_authorized_keys : Option (List String) := none
  ssh_authorized_keys_urls : Option (List String) := none
  permit_root_login : Option String := none
  password_auth : Option Bool := none
deriving DecidableEq

/-- `config_dict[field_name] = ZFSConfig._parse_value(field_name, value)`:
dispatch on the field name exactly as `_parse_value` does (integer field,
boolean fields, list fields, the optional user field, verbatim strings). -/
def RawConfig.assign (r : RawConfig) (field_name value : String) :
    Except String RawConfig :=
  if field_name = "arc_max_mb" then
    (pyParseInt value).map (fun i => { r with arc_max_mb := some i })
  else if field_name = "encrypt" then
    .ok { r with encrypt := some (pyParseBool value) }
  else if field_name = "force" then
    .ok { r with force := some (pyParseBool value) }
  else if field_name = "new_user_sudo" then
    .ok { r with new_user_sudo := some (pyParseBool value) }
  else if field_name = "password_auth" then
    .ok { r with password_auth := some (pyParseBool value) }
  else if field_name = "ssh_import_ids" then
    .ok { r with ssh_import_ids := some (pyParseList value) }
  else if field_name = "ssh_authorized_keys" then
    .ok { r with ssh_authorized_keys := some (pyParseList value) }
  else if field_name = "ssh_authorized_keys_urls" then
    .ok { r with ssh_authorized_keys_urls := some (pyParseList value) }
  else if field_name = "ci_datasources" then
    .ok { r with ci_datasources := some (pyParseList value) }
  else if field_name = "new_user" then
    .ok { r with new_user := some (if value = "" then none else some value) }
  else if field_name = "disk" then .ok { r with disk := some value }
  else if field_name = "hostname" then .ok { r with hostname := some value }
  else if field_name = "timezone" then .ok { r with timezone := some value }
  else if field_name = "pool_root" then .ok { r with pool_root := some value }
  else if field_name = "pool_boot" then .ok { r with pool_boot := some value }
  else if field_name = "permit_root_login" then
    .ok { r with permit_root_login := some value }
  else .ok r

/-- `cls(**config_dict)`: every assigned field overrides the dataclass
default. -/
def RawConfig.build (r : RawConfig) : ZFSConfig :=
  { disk := r.disk.getD "/dev/sda"
    hostname := r.hostname.getD "mail1"
    timezone := r.timezone.getD "UTC"
    pool_root := r.pool_root.getD "rpool"
    pool_boot := r.pool_boot.getD "bpool"
    arc_max_mb := r.arc_max_mb.getD 2048
    encrypt := r.encrypt.getD false
    ci_datasources := r.ci_datasources.getD ["ConfigDrive", "NoCloud", "Ec2"]
    force := r.force.getD false
    new_user := r.new_user.getD none
    new_user_sudo := r.new_user_sudo.getD true
    ssh_import_ids := r.ssh_import_ids.getD []
    ssh_authorized_keys := r.ssh_authorized_keys.getD []
    ssh_authorized_keys_urls := r.ssh_authorized_keys_urls.getD []
    permit_root_login := r.permit_root_login.getD "prohibit-password"
    password_auth := r.password_auth.getD false }

/-- The inline-comment removal of `from_env_file`: if `#` occurs in the
(already whitespace- and quote-stripped) value, keep only the text before
the first `#`, stripped of whitespace and one round of quotes again. -/
def stripInlineComment (value : String) : String :=
  if value.data.contains '#' then
    pyStripQuotes (pyStrip (String.mk (value.data.takeWhile (fun c => c ≠ '#'))))
  else value

/-- One line of the `from_env_file` reading loop, up to the key/value pair:
strip the line, skip blanks and whole-line comments, skip lines without `=`,
split on the first `=`, strip whitespace and one round of quotes from the
value, then cut at the first remaining `#` (re-stripping afterward). Returns
the key and the final raw value, or `none` for skipped lines. -/
def lineValue (rawLine : String) : Option (String × String) :=
  if pyStrip rawLine = "" then none
  else if (pyStrip rawLine).data.head? = some '#' then none
  else if !((pyStrip rawLine).data.contains '=') then none
  else
    some (pyStrip (String.mk ((pyStrip rawLine).data.takeWhile (fun c => c ≠ '='))),
      stripInlineComment (pyStripQuotes (pyStrip (String.mk
        (((pyStrip rawLine).data.dropWhile (fun c => c ≠ '=')).drop 1)))))

/-- Process one file line: recognized keys are parsed and assigned,
everything else leaves `config_dict` unchanged. -/
def processLine (r : RawConfig) (rawLine : String) : Except String RawConfig :=
  match lineValue rawLine with
  | none => .ok r
  | some (key, value) =>
    match envToFieldName key with
    | none => .ok r
    | some f => r.assign f value

/-- The file-reading loop of `from_env_file` over the file's lines. -/
def loadLines : List String → RawConfig → Except String RawConfig
  | [], r => .ok r
  | line :: rest, r =>
    match processLine r line with
    | .error e => .error e
    | .ok r2 => loadLines rest r2

/-- The environment-override loop of `from_env_file`: walk the fixed key
table in order and assign every key present in the process environment. -/
def overlayEnvAux (env : String → Option String) :
    List (String × String) → RawConfig → Except String RawConfig
  | [], r => .ok r
  | (ev, f) :: rest, r =>
    match env ev with
    | some v =>
      match r.assign f v with
      | .error e => .error e
      | .ok r2 => overlayEnvAux env rest r2
    | none => overlayEnvAux env rest r

/-- `ZFSConfig.from_env_file`: parse the file lines, overlay the process
environment, then construct (and so validate). A missing file is the empty
line list. -/
def fromEnvFile (lines : List String) (env : String → Option String) :
    Except String ZFSConfig :=
  match loadLines lines {} with
  | .error e => .error e
  | .ok r =>
    match overlayEnvAux env envMapping r with
    | .error e => .error e
    | .ok r2 => mkZFSConfig r2.build

/-! ### Serialization: `to_env_dict` and the round trip -/

/-- Python `"1" if value else "0"` for boolean fields. -/
def serBool (b : Bool) : String := if b then "1" else "0"

/-- `ZFSConfig.to_env_dict`: one entry per key of the fixed table, in table
order. `None` becomes the empty string, booleans become `"1"`/`"0"`,
`ci_datasources` is YAML-bracket style, the other lists are space-joined,
and everything else is its direct string form. -/
def toEnvDict (c : ZFSConfig) : List (String × String) :=
  [("DISK", c.disk), ("HOSTNAME", c.hostname), ("TZ", c.timezone),
   ("POOL_R", c.pool_root), ("POOL_B", c.pool_boot),
   ("ARC_MAX_MB", toString c.arc_max_mb),
   ("ENCRYPT", serBool c.encrypt), ("FORCE", serBool c.force),
   ("NEW_USER", c.new_user.getD ""),
   ("NEW_USER_SUDO", serBool c.new_user_sudo),
   ("SSH_IMPORT_IDS", joinSep ' ' c.ssh_import_ids),
   ("SSH_AUTHORIZED_KEYS", joinSep ' ' c.ssh_authorized_keys),
   ("SSH_AUTHORIZED_KEYS_URLS", joinSep ' ' c.ssh_authorized_keys_urls),
   ("PERMIT_ROOT_LOGIN", c.permit_root_login),
   ("PASSWORD_AUTH", serBool c.password_auth),
   ("CI_DATASOURCES", "[" ++ joinSep ',' c.ci_datasources ++ "]")]

/-- Feed serialized key/value pairs back through the loading coercion:
map each key through the key table and run `_parse_value` per field. -/
def loadPairs : List (String × String) → RawConfig → Except String RawConfig
  | [], r => .ok r
  | (k, v) :: rest, r =>
    match envToFieldName k with
    | some f =>
      match r.assign f v with
      | .error e => .error e
      | .ok r2 => loadPairs rest r2
    | none => loadPairs rest r

/-- The round trip of the serialization contract: `to_env_dict`, then the
loading coercion per field, then construction. -/
def reloadFromEnvDict (c : ZFSConfig) : Except String ZFSConfig :=
  match loadPairs (toEnvDict c) {} with
  | .error e => .error e
  | .ok r => mkZFSConfig r.build

/-- Decidable equality of `Except` results, for evaluating outcomes on
concrete inputs. -/
instance {ε α : Type} [DecidableEq ε] [DecidableEq α] :
    DecidableEq (Except ε α) := fun a b =>
  match a, b with
  | .error e, .error f =>
    if h : e = f then isTrue (by rw [h]) else isFalse (by simp [h])
  | .error _, .ok _ => isFalse (by simp)
  | .ok _, .error _ => isFalse (by simp)
  | .ok x, .ok y =>
    if h : x = y then isTrue (by rw [h]) else isFalse (by simp [h])

/-! ### `ProgressReporter` (`progress_reporter.py`)

Console output is not modelled; `time.time()` readings become explicit
integer timestamp arguments. -/

/-- `ProgressStep`: one named step with optional start and completion
timestamps and an optional error message. -/
structure ProgressStep where
  name : String
  description : String
  started : Option Int := none
  completed : Option Int := none
  error : Option String := none
deriving DecidableEq

/-- `ProgressStep.duration`: Python tests `if self.started and self.completed`,
so a timestamp of `0` (falsy) also yields `None`. -/
def ProgressStep.duration (st : ProgressStep) : Option Int :=
  match st.started, st.completed with
  | some a, some b => if a = 0 || b = 0 then none else some (b - a)
  | _, _ => none

/-- `ProgressReporter` state: expected total (display only), 1-based current
step counter, the ordered step records, the color flag and the construction
timestamp. -/
structure ProgressReporter where
  total_steps : Nat
  current_step : Nat
  steps : List ProgressStep
  use_color : Bool
  start_time : Int
deriving DecidableEq

/-- `ProgressReporter.__init__`. -/
def ProgressReporter.init (total_steps : Nat) (use_color : Bool)
    (start_time : Int) : ProgressReporter :=
  { total_steps := total_steps, current_step := 0, steps := [],
    use_color := use_color, start_time := start_time }

/-- `start_step(name, description)` at time `now`: append a started step and
set `current_step` to the new step's index plus one. -/
def ProgressReporter.startStep (s : ProgressReporter) (name description : String)
    (now : Int) : ProgressReporter :=
  let steps := s.steps ++
    [{ name := name, description := description, started := some now }]
  { s with steps := steps, current_step := (steps.length - 1) + 1 }

/-- `complete_step(step_index)` at time `now`: set the completion timestamp
when the index is in range, otherwise do nothing. -/
def ProgressReporter.completeStep (s : ProgressReporter) (idx : Nat)
    (now : Int) : ProgressReporter :=
  if h : idx < s.steps.length then
    { s with steps :=
        s.steps.set idx { s.steps.get ⟨idx, h⟩ with completed := some now } }
  else s

/-- `fail_step(step_index, error_message)`: set the error field when the
index is in range, otherwise do nothing. The completion timestamp is not
touched. -/
def ProgressReporter.failStep (s : ProgressReporter) (idx : Nat)
    (msg : String) : ProgressReporter :=
  if h : idx < s.steps.length then
    { s with steps :=
        s.steps.set idx { s.steps.get ⟨idx, h⟩ with error := some msg } }
  else s

/-- The completed-step count computed by `show_summary`. -/
def ProgressReporter.summaryCompletedCount (s : ProgressReporter) : Nat :=
  (s.steps.filter (fun st => st.completed.isSome)).length

/-- The failed-step count computed by `show_summary`. -/
def ProgressReporter.summaryFailedCount (s : ProgressReporter) : Nat :=
  (s.steps.filter (fun st => st.error.isSome)).length

/-- The scalar part of the snapshot produced by `get_status_json`. -/
structure StatusSnapshot where
  total_steps : Nat
  completed_steps : Nat
  failed_steps : Nat
  current_step : Nat
  total_time : Int
deriving DecidableEq

/-- `get_status_json` at time `now` (scalar fields; the per-step list is the
reporter's step list itself, with `duration` as `ProgressStep.duration`). -/
def ProgressReporter.getStatus (s : ProgressReporter) (now : Int) :
    StatusSnapshot :=
  { total_steps := s.steps.length
    completed_steps := s.summaryCompletedCount
    failed_steps := s.summaryFailedCount
    current_step := s.current_step
    total_time := now - s.start_time }

/-- Reporter operations, for reasoning about call sequences. -/
inductive ROp where
  | start (name description : String) (now : Int)
  | complete (idx : Nat) (now : Int)
  | fail (idx : Nat) (msg : String)
deriving DecidableEq

/-- Apply one reporter operation. -/
def ROp.apply (s : ProgressReporter) : ROp → ProgressReporter
  | .start name description now => s.startStep name description now
  | .complete idx now => s.completeStep idx now
  | .fail idx msg => s.failStep idx msg

/-- Run a sequence of reporter operations. -/
def runOps (s : ProgressReporter) : List ROp → ProgressReporter
  | [] => s
  | op :: rest => runOps (op.apply s) rest

/-- Operations that are `start_step` or `fail_step` calls (no completion). -/
def ROp.nonCompleting : ROp → Bool
  | .start .. => true
  | .fail .. => true
  | .complete .. => false

/-- `start_step` calls, counted for the `current_step` bookkeeping. -/
def ROp.isStart : ROp → Bool
  | .start .. => true
  | _ => false

/-! ### Basic string lemmas -/

theorem str_eq_iff_data {s t : String} : s = t ↔ s.data = t.data := by
  constructor
  · intro h; rw [h]
  · intro h; cases s; cases t; exact congrArg String.mk h

theorem str_empty_iff {s : String} : s = "" ↔ s.data = [] := by
  rw [str_eq_iff_data]

theorem mem_of_mem_trimLeftP {p : Char → Bool} {c : Char} {l : List Char}
    (h : c ∈ trimLeftP p l) : c ∈ l :=
  (List.dropWhile_sublist p).subset h

theorem mem_of_mem_trimRightP {p : Char → Bool} {c : Char} {l : List Char}
    (h : c ∈ trimRightP p l) : c ∈ l := by
  unfold trimRightP at h
  rw [List.mem_reverse] at h
  exact List.mem_reverse.mp ((List.dropWhile_sublist p).subset h)

theorem mem_of_mem_trimP {p : Char → Bool} {c : Char} {l : List Char}
    (h : c ∈ trimP p l) : c ∈ l :=
  mem_of_mem_trimLeftP (mem_of_mem_trimRightP h)

theorem mem_chompNl {c : Char} {l : List Char} (hc : c ≠ '\n') (h : c ∈ l) :
    c ∈ chompNl l := by
  unfold chompNl
  split
  · next hl =>
    have hne : l ≠ [] := by
      intro he; rw [he] at hl; simp at hl
    have hcat := List.dropLast_concat_getLast hne
    have hlast : l.getLast hne = '\n' := by
      have h2 := List.getLast_mem_getLast? hne
      rw [hl] at h2
      have h3 : '\n' = l.getLast hne := by simpa using h2
      exact h3.symm
    rw [← hcat] at h
    rcases List.mem_append.mp h with h' | h'
    · exact h'
    · rw [hlast] at h'; simp at h'; exact absurd h' hc
  · exact h

theorem pyMatchClassLine_false_of_mem {p : Char → Bool} {s : String} {c : Char}
    (hc : c ∈ s.data) (hpc : p c = false) (hnl : c ≠ '\n') :
    pyMatchClassLine p s = false := by
  have hmem : c ∈ chompNl s.data := mem_chompNl hnl hc
  have hall : (chompNl s.data).all p = false := by
    cases hb : (chompNl s.data).all p
    · rfl
    · have := List.all_eq_true.mp hb c hmem
      rw [hpc] at this; cases this
  show (decide (chompNl s.data ≠ []) && (chompNl s.data).all p) = false
  rw [hall, Bool.and_false]

theorem pyMatchClassLine_true_of_all {p : Char → Bool} {s : String}
    (hne : s.data ≠ []) (hall : ∀ c ∈ s.data, p c = true) (hnl : p '\n' = false) :
    pyMatchClassLine p s = true := by
  have hchomp : chompNl s.data = s.data := by
    unfold chompNl
    split
    · next hl =>
      exfalso
      have hlast : s.data.getLast hne = '\n' := by
        have h2 := List.getLast_mem_getLast? hne
        rw [hl] at h2
        have h3 : '\n' = s.data.getLast hne := by simpa using h2
        exact h3.symm
      have hmem : '\n' ∈ s.data := hlast ▸ List.getLast_mem hne
      have := hall _ hmem
      rw [hnl] at this; cases this
    · rfl
  show (decide (chompNl s.data ≠ []) && (chompNl s.data).all p) = true
  rw [hchomp]
  simp [hne, List.all_eq_true.mpr hall]

/-! ### Construction cascade lemmas -/

theorem mk_error_of_disk {c : ZFSConfig} {e : String}
    (h : validateDisk c.disk = .error e) : mkZFSConfig c = .error e := by
  unfold mkZFSConfig; rw [h]

theorem mk_error_of_hostname {c : ZFSConfig} {e : String}
    (h1 : validateDisk c.disk = .ok ())
    (h2 : validateHostname c.hostname = .error e) :
    mkZFSConfig c = .error e := by
  unfold mkZFSConfig; rw [h1, h2]

theorem mk_error_of_pools {c : ZFSConfig} {e : String}
    (h1 : validateDisk c.disk = .ok ())
    (h2 : validateHostname c.hostname = .ok ())
    (h3 : validatePools c.pool_root c.pool_boot c.arc_max_mb = .error e) :
    mkZFSConfig c = .error e := by
  unfold mkZFSConfig; rw [h1, h2, h3]

theorem mk_error_of_ssh {c : ZFSConfig} {e : String}
    (h1 : validateDisk c.disk = .ok ())
    (h2 : validateHostname c.hostname = .ok ())
    (h3 : validatePools c.pool_root c.pool_boot c.arc_max_mb = .ok ())
    (h4 : validateSshConfig c.permit_root_login = .error e) :
    mkZFSConfig c = .error e := by
  unfold mkZFSConfig; rw [h1, h2, h3, h4]

theorem mk_ok_of_valid {c : ZFSConfig}
    (h1 : validateDisk c.disk = .ok ())
    (h2 : validateHostname c.hostname = .ok ())
    (h3 : validatePools c.pool_root c.pool_boot c.arc_max_mb = .ok ())
    (h4 : validateSshConfig c.permit_root_login = .ok ()) :
    mkZFSConfig c = .ok c := by
  unfold mkZFSConfig; rw [h1, h2, h3, h4]

theorem mk_ok_inv {c cfg : ZFSConfig} (h : mkZFSConfig c = .ok cfg) : cfg = c := by
  unfold mkZFSConfig at h
  repeat' split at h
  all_goals simp_all

/-! ### C8, C2, C3, C5 -/

/-- C8: construction validates in the fixed order disk → hostname → pools →
ssh; it stops at and reports the first failing check's message, and when
every check passes it returns the given field record. In particular, with
both an invalid disk and an invalid hostname the reported error is the disk
error. -/
theorem ordered_validation (c : ZFSConfig) :
    (∀ e, validateDisk c.disk = .error e → mkZFSConfig c = .error e) ∧
    (∀ e, validateDisk c.disk = .ok () →
      validateHostname c.hostname = .error e → mkZFSConfig c = .error e) ∧
    (∀ e, validateDisk c.disk = .ok () → validateHostname c.hostname = .ok () →
      validatePools c.pool_root c.pool_boot c.arc_max_mb = .error e →
      mkZFSConfig c = .error e) ∧
    (∀ e, validateDisk c.disk = .ok () → validateHostname c.hostname = .ok () →
      validatePools c.pool_root c.pool_boot c.arc_max_mb = .ok () →
      validateSshConfig c.permit_root_login = .error e →
      mkZFSConfig c = .error e) ∧
    (validateDisk c.disk = .ok () → validateHostname c.hostname = .ok () →
      validatePools c.pool_root c.pool_boot c.arc_max_mb = .ok () →
      validateSshConfig c.permit_root_login = .ok () →
      mkZFSConfig c = .ok c) ∧
    (∀ e e2, validateDisk c.disk = .error e →
      validateHostname c.hostname = .error e2 → mkZFSConfig c = .error e) :=
  ⟨fun _ h => mk_error_of_disk h,
   fun _ h1 h2 => mk_error_of_hostname h1 h2,
   fun _ h1 h2 h3 => mk_error_of_pools h1 h2 h3,
   fun _ h1 h2 h3 h4 => mk_error_of_ssh h1 h2 h3 h4,
   fun h1 h2 h3 h4 => mk_ok_of_valid h1 h2 h3 h4,
   fun _ _ h1 _ => mk_error_of_disk h1⟩

/-- Witness for C8: with disk `"bad"` and hostname `"a b"` both invalid, the
construction error is the disk error. -/
theorem ordered_validation_witness :
    mkZFSConfig { defaultConfig with disk := "bad", hostname := "a b" } =
      .error "Invalid disk path: bad" :=
  (ordered_validation _).2.2.2.2.2 "Invalid disk path: bad"
    "Invalid hostname: a b" rfl rfl

/-- C2: a disk string matching either partition-suffix pattern (NVMe-style
`p`+digits, or SATA/SCSI-style `/dev/[sv]dX`+digits) is rejected; a string
with the `/dev/` device prefix matching neither pattern is accepted (other
fields at their defaults). -/
theorem disk_validation (d : String) :
    ((matchesNvmePartition d || matchesSataPartition d) = true →
      (mkZFSConfig { defaultConfig with disk := d }).toOption = none) ∧
    (pyStartsWith d "/dev/" = true → matchesNvmePartition d = false →
      matchesSataPartition d = false →
      mkZFSConfig { defaultConfig with disk := d } =
        .ok { defaultConfig with disk := d }) := by
  constructor
  · intro hpat
    cases hs : pyStartsWith d "/dev/"
    · have herr : validateDisk d = .error ("Invalid disk path: " ++ d) := by
        unfold validateDisk
        rw [hs]; rfl
      rw [mk_error_of_disk (c := { defaultConfig with disk := d }) herr]
      rfl
    · have herr : validateDisk d = .error ("DISK=" ++ d ++
          " appears to be a partition. Please specify the whole disk.") := by
        unfold validateDisk
        rw [hs, hpat]; rfl
      rw [mk_error_of_disk (c := { defaultConfig with disk := d }) herr]
      rfl
  · intro hs hn hsa
    have hok : validateDisk d = .ok () := by
      unfold validateDisk
      rw [hs, hn, hsa]; rfl
    exact mk_ok_of_valid hok rfl rfl rfl

/-- Witness for C2: `/dev/sda1` (SATA-style partition) is rejected and
`/dev/nvme0n1` (whole disk) is accepted. -/
theorem disk_validation_witness :
    (mkZFSConfig { defaultConfig with disk := "/dev/sda1" }).toOption = none ∧
    mkZFSConfig { defaultConfig with disk := "/dev/nvme0n1" } =
      .ok { defaultConfig with disk := "/dev/nvme0n1" } :=
  ⟨(disk_validation "/dev/sda1").1 (by decide),
   (disk_validation "/dev/nvme0n1").2 (by decide) (by decide) (by decide)⟩

/-- C3 (code bug): construction accepts the hostname `"ab\n"`, which
contains a character outside the alphanumeric-or-hyphen class, because the
`$` anchor of `re.match(r'^[a-zA-Z0-9-]+$', …)` also matches just before a
single trailing newline. So a successfully constructed instance need not
satisfy the documented hostname character constraint. -/
theorem hostname_newline_accepted :
    mkZFSConfig { defaultConfig with hostname := "ab\n" } =
      .ok { defaultConfig with hostname := "ab\n" } ∧
    ("ab\n" : String).data.all isHostnameChar = false := by
  constructor
  · decide
  · decide

/-- C5: hostnames containing a space, dot or underscore, the empty hostname,
and hostnames longer than 63 characters are all rejected; nonempty
alphanumeric-or-hyphen hostnames of length at most 63 are accepted (other
fields at their defaults). -/
theorem hostname_validation (h : String) :
    ((' ' ∈ h.data ∨ '.' ∈ h.data ∨ '_' ∈ h.data ∨ h = "" ∨ h.length > 63) →
      (mkZFSConfig { defaultConfig with hostname := h }).toOption = none) ∧
    ((h ≠ "" ∧ h.length ≤ 63 ∧ ∀ c ∈ h.data, isHostnameChar c = true) →
      mkZFSConfig { defaultConfig with hostname := h } =
        .ok { defaultConfig with hostname := h }) := by
  have herr_of_match_false :
      pyMatchClassLine isHostnameChar h = false →
      (mkZFSConfig { defaultConfig with hostname := h }).toOption = none := by
    intro hm
    have herr : validateHostname h = .error ("Invalid hostname: " ++ h) := by
      unfold validateHostname
      rw [hm]; rfl
    rw [mk_error_of_hostname (c := { defaultConfig with hostname := h }) rfl herr]
    rfl
  constructor
  · intro hbad
    rcases hbad with hc | hc | hc | hc | hc
    · exact herr_of_match_false
        (pyMatchClassLine_false_of_mem hc (by decide) (by decide))
    · exact herr_of_match_false
        (pyMatchClassLine_false_of_mem hc (by decide) (by decide))
    · exact herr_of_match_false
        (pyMatchClassLine_false_of_mem hc (by decide) (by decide))
    · subst hc
      exact herr_of_match_false (by decide)
    · cases hm : pyMatchClassLine isHostnameChar h
      · exact herr_of_match_false hm
      · have herr : validateHostname h = .error ("Hostname too long: " ++ h) := by
          unfold validateHostname
          rw [hm]
          simp [hc]
        rw [mk_error_of_hostname (c := { defaultConfig with hostname := h })
          rfl herr]
        rfl
  · rintro ⟨hne, hlen, hall⟩
    have hm : pyMatchClassLine isHostnameChar h = true :=
      pyMatchClassLine_true_of_all (str_empty_iff.not.mp hne) hall (by decide)
    have hok : validateHostname h = .ok () := by
      unfold validateHostname
      rw [hm]
      simp [Nat.not_lt.mpr hlen]
    exact mk_ok_of_valid rfl hok rfl rfl

/-- Witness for C5: `"te st"` is rejected, `"test-host"` is accepted. -/
theorem hostname_validation_witness :
    (mkZFSConfig { defaultConfig with hostname := "te st" }).toOption = none ∧
    mkZFSConfig { defaultConfig with hostname := "test-host" } =
      .ok { defaultConfig with hostname := "test-host" } :=
  ⟨(hostname_validation "te st").1 (Or.inl (by decide)),
   (hostname_validation "test-host").2 ⟨by decide, by decide, by decide⟩⟩

/-! ### C4 and C6 -/

theorem stripInlineComment_no_hash (value : String) :
    ('#' : Char) ∉ (stripInlineComment value).data := by
  unfold stripInlineComment
  split
  · intro hmem
    have h3 := List.mem_takeWhile_imp (mem_of_mem_trimP (mem_of_mem_trimP hmem))
    simp at h3
  · next hcont =>
    intro hmem
    exact hcont (List.contains_iff_exists_mem_beq.mpr ⟨'#', hmem, by simp⟩)

theorem lineValue_no_hash {line k v : String}
    (h : lineValue line = some (k, v)) : ('#' : Char) ∉ v.data := by
  unfold lineValue at h
  split at h
  · cases h
  split at h
  · cases h
  split at h
  · cases h
  rw [Option.some.injEq, Prod.mk.injEq] at h
  obtain ⟨-, hv⟩ := h
  subst hv
  exact stripInlineComment_no_hash _

/-- C4 (amended): after splitting a line on the first `=` and trimming
whitespace and one layer of quotes, any text from the first remaining `#` on
is stripped (re-trimming afterward) — including a `#` that was inside
quotes; no produced value contains `#`. In particular
`DISK=/dev/sda  # comment` yields exactly `/dev/sda`. -/
theorem inline_comment_stripping :
    lineValue "DISK=/dev/sda  # comment" = some ("DISK", "/dev/sda") ∧
    lineValue "ENCRYPT=yes   # Enable encryption" = some ("ENCRYPT", "yes") ∧
    (∀ line k v, lineValue line = some (k, v) → ('#' : Char) ∉ v.data) :=
  ⟨by decide, by decide, fun _ _ _ h => lineValue_no_hash h⟩

/-- Witness for C4: the inline-comment guarantee applied to the
`DISK=/dev/sda  # comment` line. -/
theorem inline_comment_stripping_witness : ('#' : Char) ∉ ("/dev/sda" : String).data :=
  inline_comment_stripping.2.2 "DISK=/dev/sda  # comment" "DISK" "/dev/sda"
    (by decide)

/-- Counterexample to C4 as stated: in `HOSTNAME="a#b"` the `#` sits inside
a quoted value, yet the loaded value is `a`, not `a#b` — quotes are stripped
before the comment cut, so a quoted `#` still starts a comment. -/
theorem quoted_hash_still_comment :
    lineValue "HOSTNAME=\"a#b\"" = some ("HOSTNAME", "a") ∧
    lineValue "HOSTNAME=\"a#b\"" ≠ some ("HOSTNAME", "a#b") := by
  constructor
  · decide
  · decide

/-- C6: list coercion maps the empty string to the empty list, dispatches
`[`…`]`-wrapped values to the comma-splitting branch and all other values to
the whitespace-splitting branch (each element whitespace- and
quote-stripped), and in particular parses the two documented examples. -/
theorem list_coercion (v : String) :
    pyParseList "" = [] ∧
    (v.data.head? = some '[' → v.data.getLast? = some ']' →
      pyParseList v = commaItems v) ∧
    (v ≠ "" → ¬(v.data.head? = some '[' ∧ v.data.getLast? = some ']') →
      pyParseList v = wsItems v) ∧
    pyParseList "gh:user1 gh:user2" = ["gh:user1", "gh:user2"] ∧
    pyParseList "[ConfigDrive,NoCloud,Ec2]" = ["ConfigDrive", "NoCloud", "Ec2"] := by
  refine ⟨by decide, ?_, ?_, by decide, by decide⟩
  · intro h1 h2
    have hne : v ≠ "" := by
      intro he; subst he; simp at h1
    simp [pyParseList, hne, h1, h2]
  · intro hne hnw
    by_cases hA : v.data.head? = some '['
    · by_cases hB : v.data.getLast? = some ']'
      · exact absurd ⟨hA, hB⟩ hnw
      · simp [pyParseList, hne, hA, hB]
    · simp [pyParseList, hne, hA]

/-- Witness for C6: the dispatch applied to a bracketed and an unbracketed
value. -/
theorem list_coercion_witness :
    pyParseList "[a]" = commaItems "[a]" ∧ pyParseList "x y" = wsItems "x y" :=
  ⟨(list_coercion "[a]").2.1 (by decide) (by decide),
   (list_coercion "x y").2.2.1 (by decide) (by decide)⟩

/-! ### C9 and C10: the progress reporter -/

theorem runOps_completed_none (ops : List ROp) :
    ∀ s : ProgressReporter, (∀ st ∈ s.steps, st.completed = none) →
    (∀ op ∈ ops, op.nonCompleting = true) →
    ∀ st ∈ (runOps s ops).steps, st.completed = none := by
  induction ops with
  | nil => intro s hs _; exact hs
  | cons op rest ih =>
    intro s hs hops
    apply ih
    · cases op with
      | start name desc now =>
        intro st hst
        simp only [ROp.apply, ProgressReporter.startStep] at hst
        rcases List.mem_append.mp hst with h' | h'
        · exact hs st h'
        · simp at h'
          rw [h']
      | complete idx now =>
        have := hops _ (List.mem_cons_self _ _)
        simp [ROp.nonCompleting] at this
      | fail idx msg =>
        intro st hst
        simp only [ROp.apply, ProgressReporter.failStep] at hst
        split at hst
        · next hlt =>
          rcases List.mem_or_eq_of_mem_set hst with h' | h'
          · exact hs st h'
          · have hc : st.completed = (s.steps.get ⟨idx, hlt⟩).completed := by
              rw [h']
            rw [hc]
            exact hs (s.steps.get ⟨idx, hlt⟩) (List.get_mem s.steps idx hlt)
        · exact hs st hst
    · intro o ho
      exact hops o (List.mem_cons_of_mem _ ho)

/-- C9: `fail_step` at an in-range index sets exactly that step's error
field, leaving its other fields (completion timestamp included), all other
steps and the reporter counters untouched; the failed-step count of
`show_summary` counts exactly the steps with an error set; and any sequence
of `start_step`/`fail_step` calls (no completion) leaves every step — in
particular a failed one — without a completion timestamp. -/
theorem fail_step_behavior (total : Nat) (uc : Bool) (t0 : Int) :
    (∀ (s : ProgressReporter) (idx : Nat) (msg : String) (st : ProgressStep),
      s.steps[idx]? = some st →
        (s.failStep idx msg).steps[idx]? = some { st with error := some msg } ∧
        (∀ j, j ≠ idx → (s.failStep idx msg).steps[j]? = s.steps[j]?) ∧
        (s.failStep idx msg).current_step = s.current_step ∧
        (s.failStep idx msg).total_steps = s.total_steps ∧
        (s.failStep idx msg).start_time = s.start_time) ∧
    (∀ s : ProgressReporter,
      s.summaryFailedCount = s.steps.countP (fun st => st.error.isSome)) ∧
    (∀ ops : List ROp, (∀ op ∈ ops, op.nonCompleting = true) →
      ∀ st ∈ (runOps (ProgressReporter.init total uc t0) ops).steps,
        st.completed = none) := by
  refine ⟨?_, ?_, ?_⟩
  · intro s idx msg st h
    obtain ⟨hlt, hget⟩ := List.getElem?_eq_some.mp h
    have hst : s.steps.get ⟨idx, hlt⟩ = st := hget
    unfold ProgressReporter.failStep
    rw [dif_pos hlt]
    refine ⟨?_, ?_, rfl, rfl, rfl⟩
    · show (s.steps.set idx _)[idx]? = _
      rw [List.getElem?_set_self (by simpa using hlt), hst]
    · intro j hj
      show (s.steps.set idx _)[j]? = _
      rw [List.getElem?_set_ne (Ne.symm hj)]
  · intro s
    exact (List.countP_eq_length_filter _ _).symm
  · intro ops hops
    exact runOps_completed_none ops _ (by simp [ProgressReporter.init]) hops

/-- Witness for C9: failing step 0 of a one-step run records the error and
no completion timestamp, and a start-then-fail sequence leaves the step
uncompleted. -/
theorem fail_step_behavior_witness :
    ((ProgressReporter.init 2 false 0).startStep "a" "x" 1).failStep 0 "boom"
        |>.steps[0]? =
      some { name := "a", description := "x", started := some 1,
             completed := none, error := some "boom" } ∧
    ({ name := "a", description := "x", started := some 1, completed := none,
       error := some "m" } : ProgressStep).completed = none :=
  ⟨(((fail_step_behavior 2 false 0).1
      ((ProgressReporter.init 2 false 0).startStep "a" "x" 1) 0 "boom"
      { name := "a", description := "x", started := some 1 } (by decide)).1),
   ((fail_step_behavior 2 false 0).2.2
      [ROp.start "a" "x" 1, ROp.fail 0 "m"] (by decide)
      { name := "a", description := "x", started := some 1, completed := none,
        error := some "m" } (by decide))⟩

theorem runOps_current_step_length (ops : List ROp) :
    ∀ s : ProgressReporter, s.current_step = s.steps.length →
    (runOps s ops).current_step = (runOps s ops).steps.length ∧
    (runOps s ops).steps.length =
      s.steps.length + (ops.filter ROp.isStart).length := by
  induction ops with
  | nil => intro s hs; exact ⟨hs, by simp [runOps]⟩
  | cons op rest ih =>
    intro s hs
    cases op with
    | start name desc now =>
      have hinv : (s.startStep name desc now).current_step =
          (s.startStep name desc now).steps.length := by
        simp [ProgressReporter.startStep]
      obtain ⟨h1, h2⟩ := ih (s.startStep name desc now) hinv
      refine ⟨h1, ?_⟩
      show (runOps (s.startStep name desc now) rest).steps.length = _
      rw [h2]
      simp [ProgressReporter.startStep, ROp.isStart, List.filter_cons]
      omega
    | complete idx now =>
      have hlen : (s.completeStep idx now).steps.length = s.steps.length := by
        unfold ProgressReporter.completeStep
        split <;> simp
      have hcur : (s.completeStep idx now).current_step = s.current_step := by
        unfold ProgressReporter.completeStep
        split <;> rfl
      obtain ⟨h1, h2⟩ := ih (s.completeStep idx now) (by rw [hcur, hs, hlen])
      refine ⟨h1, ?_⟩
      show (runOps (s.completeStep idx now) rest).steps.length = _
      rw [h2, hlen]
      simp [ROp.isStart, List.filter_cons]
    | fail idx msg =>
      have hlen : (s.failStep idx msg).steps.length = s.steps.length := by
        unfold ProgressReporter.failStep
        split <;> simp
      have hcur : (s.failStep idx msg).current_step = s.current_step := by
        unfold ProgressReporter.failStep
        split <;> rfl
      obtain ⟨h1, h2⟩ := ih (s.failStep idx msg) (by rw [hcur, hs, hlen])
      refine ⟨h1, ?_⟩
      show (runOps (s.failStep idx msg) rest).steps.length = _
      rw [h2, hlen]
      simp [ROp.isStart, List.filter_cons]

/-- C10: in the `get_status_json` snapshot, `total_steps` is the number of
steps started so far (the length of the step list) — not the expected total
given to the constructor, as the last conjunct shows for a fresh reporter
constructed with total 7 — and `current_step` equals the number of
`start_step` calls; after any call sequence `current_step` equals the step
list's length. -/
theorem status_total_and_current (total : Nat) (uc : Bool) (t0 now : Int)
    (ops : List ROp) :
    ((runOps (ProgressReporter.init total uc t0) ops).getStatus now).total_steps =
      (runOps (ProgressReporter.init total uc t0) ops).steps.length ∧
    ((runOps (ProgressReporter.init total uc t0) ops).getStatus now).current_step =
      (ops.filter ROp.isStart).length ∧
    (runOps (ProgressReporter.init total uc t0) ops).current_step =
      (runOps (ProgressReporter.init total uc t0) ops).steps.length ∧
    ((ProgressReporter.init 7 uc t0).getStatus now).total_steps = 0 := by
  obtain ⟨h1, h2⟩ := runOps_current_step_length ops
    (ProgressReporter.init total uc t0) rfl
  refine ⟨rfl, ?_, h1, rfl⟩
  show (runOps (ProgressReporter.init total uc t0) ops).current_step = _
  rw [h1, h2]
  simp [ProgressReporter.init]

/-! ### C7: environment overrides the file -/

set_option maxHeartbeats 1600000 in
theorem assign_hostname_eq (r : RawConfig) (v : String) :
    RawConfig.assign r "hostname" v = .ok { r with hostname := some v } := rfl

set_option maxHeartbeats 1600000 in
theorem assign_disk_eq (r : RawConfig) (v : String) :
    RawConfig.assign r "disk" v = .ok { r with disk := some v } := rfl

set_option maxHeartbeats 1600000 in
theorem assign_timezone_eq (r : RawConfig) (v : String) :
    RawConfig.assign r "timezone" v = .ok { r with timezone := some v } := rfl

set_option maxHeartbeats 1600000 in
theorem assign_pool_root_eq (r : RawConfig) (v : String) :
    RawConfig.assign r "pool_root" v = .ok { r with pool_root := some v } := rfl

set_option maxHeartbeats 1600000 in
theorem assign_pool_boot_eq (r : RawConfig) (v : String) :
    RawConfig.assign r "pool_boot" v = .ok { r with pool_boot := some v } := rfl

set_option maxHeartbeats 1600000 in
theorem assign_arc_eq (r : RawConfig) (v : String) :
    RawConfig.assign r "arc_max_mb" v =
      (pyParseInt v).map (fun i => { r with arc_max_mb := some i }) := rfl

set_option maxHeartbeats 1600000 in
theorem assign_encrypt_eq (r : RawConfig) (v : String) :
    RawConfig.assign r "encrypt" v =
      .ok { r with encrypt := some (pyParseBool v) } := rfl

set_option maxHeartbeats 1600000 in
theorem assign_force_eq (r : RawConfig) (v : String) :
    RawConfig.assign r "force" v =
      .ok { r with force := some (pyParseBool v) } := rfl

set_option maxHeartbeats 1600000 in
theorem assign_new_user_sudo_eq (r : RawConfig) (v : String) :
    RawConfig.assign r "new_user_sudo" v =
      .ok { r with new_user_sudo := some (pyParseBool v) } := rfl

set_option maxHeartbeats 1600000 in
theorem assign_password_auth_eq (r : RawConfig) (v : String) :
    RawConfig.assign r "password_auth" v =
      .ok { r with password_auth := some (pyParseBool v) } := rfl

set_option maxHeartbeats 1600000 in
theorem assign_ssh_import_ids_eq (r : RawConfig) (v : String) :
    RawConfig.assign r "ssh_import_ids" v =
      .ok { r with ssh_import_ids := some (pyParseList v) } := rfl

set_option maxHeartbeats 1600000 in
theorem assign_ssh_authorized_keys_eq (r : RawConfig) (v : String) :
    RawConfig.assign r "ssh_authorized_keys" v =
      .ok { r with ssh_authorized_keys := some (pyParseList v) } := rfl

set_option maxHeartbeats 1600000 in
theorem assign_ssh_authorized_keys_urls_eq (r : RawConfig) (v : String) :
    RawConfig.assign r "ssh_authorized_keys_urls" v =
      .ok { r with ssh_authorized_keys_urls := some (pyParseList v) } := rfl

set_option maxHeartbeats 1600000 in
theorem assign_ci_datasources_eq (r : RawConfig) (v : String) :
    RawConfig.assign r "ci_datasources" v =
      .ok { r with ci_datasources := some (pyParseList v) } := rfl

set_option maxHeartbeats 1600000 in
theorem assign_new_user_eq (r : RawConfig) (v : String) :
    RawConfig.assign r "new_user" v =
      .ok { r with new_user := some (if v = "" then none else some v) } := rfl

set_option maxHeartbeats 1600000 in
theorem assign_permit_root_login_eq (r : RawConfig) (v : String) :
    RawConfig.assign r "permit_root_login" v =
      .ok { r with permit_root_login := some v } := rfl

theorem overlayAux_cons_some {env : String → Option String} {ev f v : String}
    {rest : List (String × String)} {r : RawConfig} (henv : env ev = some v) :
    overlayEnvAux env ((ev, f) :: rest) r =
      match RawConfig.assign r f v with
      | .error e => .error e
      | .ok r2 => overlayEnvAux env rest r2 := by
  have h0 : overlayEnvAux env ((ev, f) :: rest) r =
      match env ev with
      | some w =>
        match RawConfig.assign r f w with
        | .error e => .error e
        | .ok r2 => overlayEnvAux env rest r2
      | none => overlayEnvAux env rest r := rfl
  rw [h0, henv]

theorem overlayAux_cons_none {env : String → Option String} {ev f : String}
    {rest : List (String × String)} {r : RawConfig} (henv : env ev = none) :
    overlayEnvAux env ((ev, f) :: rest) r = overlayEnvAux env rest r := by
  have h0 : overlayEnvAux env ((ev, f) :: rest) r =
      match env ev with
      | some w =>
        match RawConfig.assign r f w with
        | .error e => .error e
        | .ok r2 => overlayEnvAux env rest r2
      | none => overlayEnvAux env rest r := rfl
  rw [h0, henv]

theorem overlayAux_preserves_proj {β : Type} (g : RawConfig → β)
    (ps : List (String × String)) (env : String → Option String) :
    ∀ (r r' : RawConfig),
    (∀ p ∈ ps, ∀ (r1 r2 : RawConfig) (v : String),
      RawConfig.assign r1 p.2 v = .ok r2 → g r2 = g r1) →
    overlayEnvAux env ps r = .ok r' → g r' = g r := by
  induction ps with
  | nil =>
    intro r r' _ h
    simp only [overlayEnvAux, Except.ok.injEq] at h
    subst h; rfl
  | cons p rest ih =>
    intro r r' hps h
    obtain ⟨ev, f⟩ := p
    cases henv : env ev with
    | none =>
      rw [overlayAux_cons_none henv] at h
      exact ih r r' (fun q hq => hps q (List.mem_cons_of_mem _ hq)) h
    | some v =>
      rw [overlayAux_cons_some henv] at h
      cases hass : RawConfig.assign r f v with
      | error e => rw [hass] at h; cases h
      | ok r2 =>
        rw [hass] at h
        have h2 : overlayEnvAux env rest r2 = .ok r' := h
        have hpre : g r2 = g r :=
          hps (ev, f) (List.mem_cons_self _ _) r r2 v hass
        rw [ih r2 r' (fun q hq => hps q (List.mem_cons_of_mem _ hq)) h2, hpre]

theorem overlayAux_append (env : String → Option String)
    (ps1 ps2 : List (String × String)) :
    ∀ (r r' : RawConfig), overlayEnvAux env (ps1 ++ ps2) r = .ok r' →
    ∃ rm, overlayEnvAux env ps1 r = .ok rm ∧
      overlayEnvAux env ps2 rm = .ok r' := by
  induction ps1 with
  | nil => intro r r' h; exact ⟨r, rfl, h⟩
  | cons p rest ih =>
    intro r r' h
    obtain ⟨ev, f⟩ := p
    rw [List.cons_append] at h
    cases henv : env ev with
    | none =>
      rw [overlayAux_cons_none henv] at h
      obtain ⟨rm, h1, h2⟩ := ih r r' h
      refine ⟨rm, ?_, h2⟩
      rw [overlayAux_cons_none henv]
      exact h1
    | some v =>
      rw [overlayAux_cons_some henv] at h
      cases hass : RawConfig.assign r f v with
      | error e => rw [hass] at h; cases h
      | ok r2 =>
        rw [hass] at h
        have h2 : overlayEnvAux env (rest ++ ps2) r2 = .ok r' := h
        obtain ⟨rm, h1, h3⟩ := ih r2 r' h2
        refine ⟨rm, ?_, h3⟩
        rw [overlayAux_cons_some henv, hass]
        exact h1

/-- Assigning any field of the key table leaves every other field of
`config_dict` unchanged. -/
theorem assign_mapping_preserves :
    ∀ p ∈ envMapping, ∀ (r1 r2 : RawConfig) (v : String),
      RawConfig.assign r1 p.2 v = .ok r2 →
      (p.2 ≠ "disk" → r2.disk = r1.disk) ∧
      (p.2 ≠ "hostname" → r2.hostname = r1.hostname) ∧
      (p.2 ≠ "timezone" → r2.timezone = r1.timezone) ∧
      (p.2 ≠ "pool_root" → r2.pool_root = r1.pool_root) ∧
      (p.2 ≠ "pool_boot" → r2.pool_boot = r1.pool_boot) ∧
      (p.2 ≠ "arc_max_mb" → r2.arc_max_mb = r1.arc_max_mb) ∧
      (p.2 ≠ "encrypt" → r2.encrypt = r1.encrypt) ∧
      (p.2 ≠ "ci_datasources" → r2.ci_datasources = r1.ci_datasources) ∧
      (p.2 ≠ "force" → r2.force = r1.force) ∧
      (p.2 ≠ "new_user" → r2.new_user = r1.new_user) ∧
      (p.2 ≠ "new_user_sudo" → r2.new_user_sudo = r1.new_user_sudo) ∧
      (p.2 ≠ "ssh_import_ids" → r2.ssh_import_ids = r1.ssh_import_ids) ∧
      (p.2 ≠ "ssh_authorized_keys" →
        r2.ssh_authorized_keys = r1.ssh_authorized_keys) ∧
      (p.2 ≠ "ssh_authorized_keys_urls" →
        r2.ssh_authorized_keys_urls = r1.ssh_authorized_keys_urls) ∧
      (p.2 ≠ "permit_root_login" →
        r2.permit_root_login = r1.permit_root_login) ∧
      (p.2 ≠ "password_auth" → r2.password_auth = r1.password_auth) := by
  intro p hp
  simp only [envMapping, List.mem_cons, List.not_mem_nil, or_false] at hp
  rcases hp with rfl | rfl | rfl | rfl | rfl | rfl | rfl | rfl | rfl | rfl |
    rfl | rfl | rfl | rfl | rfl | rfl
  · intro r1 r2 v h
    rw [assign_disk_eq] at h
    simp only [Except.ok.injEq] at h
    subst h
    refine ⟨?_, ?_, ?_, ?_, ?_, ?_, ?_, ?_, ?_, ?_, ?_, ?_, ?_, ?_, ?_, ?_⟩ <;>
      intro hne <;> first | rfl | exact absurd rfl hne
  · intro r1 r2 v h
    rw [assign_hostname_eq] at h
    simp only [Except.ok.injEq] at h
    subst h
    refine ⟨?_, ?_, ?_, ?_, ?_, ?_, ?_, ?_, ?_, ?_, ?_, ?_, ?_, ?_, ?_, ?_⟩ <;>
      intro hne <;> first | rfl | exact absurd rfl hne
  · intro r1 r2 v h
    rw [assign_timezone_eq] at h
    simp only [Except.ok.injEq] at h
    subst h
    refine ⟨?_, ?_, ?_, ?_, ?_, ?_, ?_, ?_, ?_, ?_, ?_, ?_, ?_, ?_, ?_, ?_⟩ <;>
      intro hne <;> first | rfl | exact absurd rfl hne
  · intro r1 r2 v h
    rw [assign_pool_root_eq] at h
    simp only [Except.ok.injEq] at h
    subst h
    refine ⟨?_, ?_, ?_, ?_, ?_, ?_, ?_, ?_, ?_, ?_, ?_, ?_, ?_, ?_, ?_, ?_⟩ <;>
      intro hne <;> first | rfl | exact absurd rfl hne
  · intro r1 r2 v h
    rw [assign_pool_boot_eq] at h
    simp only [Except.ok.injEq] at h
    subst h
    refine ⟨?_, ?_, ?_, ?_, ?_, ?_, ?_, ?_, ?_, ?_, ?_, ?_, ?_, ?_, ?_, ?_⟩ <;>
      intro hne <;> first | rfl | exact absurd rfl hne
  · intro r1 r2 v h
    rw [assign_arc_eq] at h
    cases hpi : pyParseInt v with
    | error e => rw [hpi] at h; cases h
    | ok i =>
      rw [hpi] at h
      simp only [Except.map, Except.ok.injEq] at h
      subst h
      refine ⟨?_, ?_, ?_, ?_, ?_, ?_, ?_, ?_, ?_, ?_, ?_, ?_, ?_, ?_, ?_, ?_⟩ <;>
        intro hne <;> first | rfl | exact absurd rfl hne
  · intro r1 r2 v h
    rw [assign_encrypt_eq] at h
    simp only [Except.ok.injEq] at h
    subst h
    refine ⟨?_, ?_, ?_, ?_, ?_, ?_, ?_, ?_, ?_, ?_, ?_, ?_, ?_, ?_, ?_, ?_⟩ <;>
      intro hne <;> first | rfl | exact absurd rfl hne
  · intro r1 r2 v h
    rw [assign_force_eq] at h
    simp only [Except.ok.injEq] at h
    subst h
    refine ⟨?_, ?_, ?_, ?_, ?_, ?_, ?_, ?_, ?_, ?_, ?_, ?_, ?_, ?_, ?_, ?_⟩ <;>
      intro hne <;> first | rfl | exact absurd rfl hne
  · intro r1 r2 v h
    rw [assign_new_user_eq] at h
    simp only [Except.ok.injEq] at h
    subst h
    refine ⟨?_, ?_, ?_, ?_, ?_, ?_, ?_, ?_, ?_, ?_, ?_, ?_, ?_, ?_, ?_, ?_⟩ <;>
      intro hne <;> first | rfl | exact absurd rfl hne
  · intro r1 r2 v h
    rw [assign_new_user_sudo_eq] at h
    simp only [Except.ok.injEq] at h
    subst h
    refine ⟨?_, ?_, ?_, ?_, ?_, ?_, ?_, ?_, ?_, ?_, ?_, ?_, ?_, ?_, ?_, ?_⟩ <;>
      intro hne <;> first | rfl | exact absurd rfl hne
  · intro r1 r2 v h
    rw [assign_ssh_import_ids_eq] at h
    simp only [Except.ok.injEq] at h
    subst h
    refine ⟨?_, ?_, ?_, ?_, ?_, ?_, ?_, ?_, ?_, ?_, ?_, ?_, ?_, ?_, ?_, ?_⟩ <;>
      intro hne <;> first | rfl | exact absurd rfl hne
  · intro r1 r2 v h
    rw [assign_ssh_authorized_keys_eq] at h
    simp only [Except.ok.injEq] at h
    subst h
    refine ⟨?_, ?_, ?_, ?_, ?_, ?_, ?_, ?_, ?_, ?_, ?_, ?_, ?_, ?_, ?_, ?_⟩ <;>
      intro hne <;> first | rfl | exact absurd rfl hne
  · intro r1 r2 v h
    rw [assign_ssh_authorized_keys_urls_eq] at h
    simp only [Except.ok.injEq] at h
    subst h
    refine ⟨?_, ?_, ?_, ?_, ?_, ?_, ?_, ?_, ?_, ?_, ?_, ?_, ?_, ?_, ?_, ?_⟩ <;>
      intro hne <;> first | rfl | exact absurd rfl hne
  · intro r1 r2 v h
    rw [assign_permit_root_login_eq] at h
    simp only [Except.ok.injEq] at h
    subst h
    refine ⟨?_, ?_, ?_, ?_, ?_, ?_, ?_, ?_, ?_, ?_, ?_, ?_, ?_, ?_, ?_, ?_⟩ <;>
      intro hne <;> first | rfl | exact absurd rfl hne
  · intro r1 r2 v h
    rw [assign_password_auth_eq] at h
    simp only [Except.ok.injEq] at h
    subst h
    refine ⟨?_, ?_, ?_, ?_, ?_, ?_, ?_, ?_, ?_, ?_, ?_, ?_, ?_, ?_, ?_, ?_⟩ <;>
      intro hne <;> first | rfl | exact absurd rfl hne
  · intro r1 r2 v h
    rw [assign_ci_datasources_eq] at h
    simp only [Except.ok.injEq] at h
    subst h
    refine ⟨?_, ?_, ?_, ?_, ?_, ?_, ?_, ?_, ?_, ?_, ?_, ?_, ?_, ?_, ?_, ?_⟩ <;>
      intro hne <;> first | rfl | exact absurd rfl hne

/-- After a successful overlay, a field whose key the environment defines
holds the value assigned at that key, because the later table entries touch
other fields only. -/
theorem overlay_field_value {β : Type} (g : RawConfig → β) (K F : String)
    (pre tail : List (String × String))
    (hmap : envMapping = pre ++ (K, F) :: tail)
    (env : String → Option String) (r r' : RawConfig) (v : String) (w : β)
    (henv : env K = some v)
    (hassign : ∀ rm : RawConfig, ∃ r2,
      RawConfig.assign rm F v = .ok r2 ∧ g r2 = w)
    (htail : ∀ p ∈ tail, ∀ (r1 r2 : RawConfig) (u : String),
      RawConfig.assign r1 p.2 u = .ok r2 → g r2 = g r1)
    (hov : overlayEnvAux env envMapping r = .ok r') :
    g r' = w := by
  rw [hmap] at hov
  obtain ⟨rm, _, h2⟩ := overlayAux_append env pre ((K, F) :: tail) r r' hov
  rw [overlayAux_cons_some henv] at h2
  obtain ⟨r2, ha, hg⟩ := hassign rm
  rw [ha] at h2
  have h3 : overlayEnvAux env tail r2 = .ok r' := h2
  rw [overlayAux_preserves_proj g tail env r2 r' htail h3, hg]

theorem fromEnvFile_ok_parts (lines : List String)
    (env : String → Option String) (cfg : ZFSConfig)
    (h : fromEnvFile lines env = .ok cfg) :
    ∃ r0 r2, loadLines lines {} = .ok r0 ∧
      overlayEnvAux env envMapping r0 = .ok r2 ∧ cfg = r2.build := by
  unfold fromEnvFile at h
  cases hload : loadLines lines {} with
  | error e => rw [hload] at h; cases h
  | ok r0 =>
    rw [hload] at h
    have h1 : (match overlayEnvAux env envMapping r0 with
        | .error e => .error e
        | .ok r2 => mkZFSConfig r2.build) = Except.ok cfg := h
    cases hov : overlayEnvAux env envMapping r0 with
    | error e => rw [hov] at h1; cases h1
    | ok r2 =>
      rw [hov] at h1
      have h2 : mkZFSConfig r2.build = .ok cfg := h1
      exact ⟨r0, r2, rfl, hov, mk_ok_inv h2⟩

/-- C7: every recognized environment variable that is present wins over the
file content: whatever the file lines contain, a successfully loaded
configuration carries, for each of the sixteen keys of the fixed table, the
coerced environment value of that key (verbatim for string fields, boolean
coercion for flag fields, list coercion for list fields, the empty-string →
absent rule for `new_user`, and the parsed integer for `arc_max_mb`). In
particular a file line `HOSTNAME=fromfile` with environment
`HOSTNAME=fromenv` loads hostname `fromenv`. -/
theorem env_overrides_file (lines : List String)
    (env : String → Option String) (cfg : ZFSConfig)
    (h : fromEnvFile lines env = .ok cfg) :
    (∀ v, env "DISK" = some v → cfg.disk = v) ∧
    (∀ v, env "HOSTNAME" = some v → cfg.hostname = v) ∧
    (∀ v, env "TZ" = some v → cfg.timezone = v) ∧
    (∀ v, env "POOL_R" = some v → cfg.pool_root = v) ∧
    (∀ v, env "POOL_B" = some v → cfg.pool_boot = v) ∧
    (∀ v i, env "ARC_MAX_MB" = some v → pyParseInt v = .ok i →
      cfg.arc_max_mb = i) ∧
    (∀ v, env "ENCRYPT" = some v → cfg.encrypt = pyParseBool v) ∧
    (∀ v, env "FORCE" = some v → cfg.force = pyParseBool v) ∧
    (∀ v, env "NEW_USER" = some v →
      cfg.new_user = (if v = "" then none else some v)) ∧
    (∀ v, env "NEW_USER_SUDO" = some v → cfg.new_user_sudo = pyParseBool v) ∧
    (∀ v, env "SSH_IMPORT_IDS" = some v →
      cfg.ssh_import_ids = pyParseList v) ∧
    (∀ v, env "SSH_AUTHORIZED_KEYS" = some v →
      cfg.ssh_authorized_keys = pyParseList v) ∧
    (∀ v, env "SSH_AUTHORIZED_KEYS_URLS" = some v →
      cfg.ssh_authorized_keys_urls = pyParseList v) ∧
    (∀ v, env "PERMIT_ROOT_LOGIN" = some v →
      cfg.permit_root_login = v) ∧
    (∀ v, env "PASSWORD_AUTH" = some v → cfg.password_auth = pyParseBool v) ∧
    (∀ v, env "CI_DATASOURCES" = some v →
      cfg.ci_datasources = pyParseList v) := by
  obtain ⟨r0, r2, _, hov, hcfg⟩ := fromEnvFile_ok_parts lines env cfg h
  refine ⟨?_, ?_, ?_, ?_, ?_, ?_, ?_, ?_, ?_, ?_, ?_, ?_, ?_, ?_, ?_, ?_⟩
  · intro v henv
    have hall : ∀ q ∈ envMapping.drop 1, q ∈ envMapping ∧ q.2 ≠ "disk" := by
      decide
    have hval := overlay_field_value (fun r => r.disk) "DISK" "disk"
      (envMapping.take 0) (envMapping.drop 1) rfl env r0 r2 v (some v) henv
      (fun rm => ⟨{ rm with disk := some v }, assign_disk_eq rm v, rfl⟩)
      (fun p hp r1 r3 u ha =>
        ((assign_mapping_preserves p (hall p hp).1 r1 r3 u ha).1) (hall p hp).2)
      hov
    rw [hcfg]
    show (r2.disk).getD "/dev/sda" = v
    have hval2 : r2.disk = _ := hval
    rw [hval2]
    rfl
  · intro v henv
    have hall : ∀ q ∈ envMapping.drop 2, q ∈ envMapping ∧ q.2 ≠ "hostname" := by
      decide
    have hval := overlay_field_value (fun r => r.hostname) "HOSTNAME" "hostname"
      (envMapping.take 1) (envMapping.drop 2) rfl env r0 r2 v (some v) henv
      (fun rm => ⟨{ rm with hostname := some v }, assign_hostname_eq rm v, rfl⟩)
      (fun p hp r1 r3 u ha =>
        ((assign_mapping_preserves p (hall p hp).1 r1 r3 u ha).2.1) (hall p hp).2)
      hov
    rw [hcfg]
    show (r2.hostname).getD "mail1" = v
    have hval2 : r2.hostname = _ := hval
    rw [hval2]
    rfl
  · intro v henv
    have hall : ∀ q ∈ envMapping.drop 3, q ∈ envMapping ∧ q.2 ≠ "timezone" := by
      decide
    have hval := overlay_field_value (fun r => r.timezone) "TZ" "timezone"
      (envMapping.take 2) (envMapping.drop 3) rfl env r0 r2 v (some v) henv
      (fun rm => ⟨{ rm with timezone := some v }, assign_timezone_eq rm v, rfl⟩)
      (fun p hp r1 r3 u ha =>
        ((assign_mapping_preserves p (hall p hp).1 r1 r3 u ha).2.2.1)
          (hall p hp).2)
      hov
    rw [hcfg]
    show (r2.timezone).getD "UTC" = v
    have hval2 : r2.timezone = _ := hval
    rw [hval2]
    rfl
  · intro v henv
    have hall : ∀ q ∈ envMapping.drop 4, q ∈ envMapping ∧ q.2 ≠ "pool_root" := by
      decide
    have hval := overlay_field_value (fun r => r.pool_root) "POOL_R" "pool_root"
      (envMapping.take 3) (envMapping.drop 4) rfl env r0 r2 v (some v) henv
      (fun rm => ⟨{ rm with pool_root := some v }, assign_pool_root_eq rm v, rfl⟩)
      (fun p hp r1 r3 u ha =>
        ((assign_mapping_preserves p (hall p hp).1 r1 r3 u ha).2.2.2.1)
          (hall p hp).2)
      hov
    rw [hcfg]
    show (r2.pool_root).getD "rpool" = v
    have hval2 : r2.pool_root = _ := hval
    rw [hval2]
    rfl
  · intro v henv
    have hall : ∀ q ∈ envMapping.drop 5, q ∈ envMapping ∧ q.2 ≠ "pool_boot" := by
      decide
    have hval := overlay_field_value (fun r => r.pool_boot) "POOL_B" "pool_boot"
      (envMapping.take 4) (envMapping.drop 5) rfl env r0 r2 v (some v) henv
      (fun rm => ⟨{ rm with pool_boot := some v }, assign_pool_boot_eq rm v, rfl⟩)
      (fun p hp r1 r3 u ha =>
        ((assign_mapping_preserves p (hall p hp).1 r1 r3 u ha).2.2.2.2.1)
          (hall p hp).2)
      hov
    rw [hcfg]
    show (r2.pool_boot).getD "bpool" = v
    have hval2 : r2.pool_boot = _ := hval
    rw [hval2]
    rfl
  · intro v i henv hpi
    have hall : ∀ q ∈ envMapping.drop 6, q ∈ envMapping ∧ q.2 ≠ "arc_max_mb" := by
      decide
    have hval := overlay_field_value (fun r => r.arc_max_mb) "ARC_MAX_MB"
      "arc_max_mb" (envMapping.take 5) (envMapping.drop 6) rfl env r0 r2 v
      (some i) henv
      (fun rm => ⟨{ rm with arc_max_mb := some i }, by
        rw [assign_arc_eq, hpi]; rfl, rfl⟩)
      (fun p hp r1 r3 u ha =>
        ((assign_mapping_preserves p (hall p hp).1 r1 r3 u ha).2.2.2.2.2.1)
          (hall p hp).2)
      hov
    rw [hcfg]
    show (r2.arc_max_mb).getD 2048 = i
    have hval2 : r2.arc_max_mb = _ := hval
    rw [hval2]
    rfl
  · intro v henv
    have hall : ∀ q ∈ envMapping.drop 7, q ∈ envMapping ∧ q.2 ≠ "encrypt" := by
      decide
    have hval := overlay_field_value (fun r => r.encrypt) "ENCRYPT" "encrypt"
      (envMapping.take 6) (envMapping.drop 7) rfl env r0 r2 v
      (some (pyParseBool v)) henv
      (fun rm => ⟨{ rm with encrypt := some (pyParseBool v) },
        assign_encrypt_eq rm v, rfl⟩)
      (fun p hp r1 r3 u ha =>
        ((assign_mapping_preserves p (hall p hp).1 r1 r3 u ha).2.2.2.2.2.2.1)
          (hall p hp).2)
      hov
    rw [hcfg]
    show (r2.encrypt).getD false = pyParseBool v
    have hval2 : r2.encrypt = _ := hval
    rw [hval2]
    rfl
  · intro v henv
    have hall : ∀ q ∈ envMapping.drop 8, q ∈ envMapping ∧ q.2 ≠ "force" := by
      decide
    have hval := overlay_field_value (fun r => r.force) "FORCE" "force"
      (envMapping.take 7) (envMapping.drop 8) rfl env r0 r2 v
      (some (pyParseBool v)) henv
      (fun rm => ⟨{ rm with force := some (pyParseBool v) },
        assign_force_eq rm v, rfl⟩)
      (fun p hp r1 r3 u ha =>
        ((assign_mapping_preserves p (hall p hp).1 r1 r3 u
          ha).2.2.2.2.2.2.2.2.1) (hall p hp).2)
      hov
    rw [hcfg]
    show (r2.force).getD false = pyParseBool v
    have hval2 : r2.force = _ := hval
    rw [hval2]
    rfl
  · intro v henv
    have hall : ∀ q ∈ envMapping.drop 9, q ∈ envMapping ∧ q.2 ≠ "new_user" := by
      decide
    have hval := overlay_field_value (fun r => r.new_user) "NEW_USER" "new_user"
      (envMapping.take 8) (envMapping.drop 9) rfl env r0 r2 v
      (some (if v = "" then none else some v)) henv
      (fun rm => ⟨{ rm with new_user := some (if v = "" then none else some v) },
        assign_new_user_eq rm v, rfl⟩)
      (fun p hp r1 r3 u ha =>
        ((assign_mapping_preserves p (hall p hp).1 r1 r3 u
          ha).2.2.2.2.2.2.2.2.2.1) (hall p hp).2)
      hov
    rw [hcfg]
    show (r2.new_user).getD none = (if v = "" then none else some v)
    have hval2 : r2.new_user = _ := hval
    rw [hval2]
    rfl
  · intro v henv
    have hall : ∀ q ∈ envMapping.drop 10, q ∈ envMapping ∧
        q.2 ≠ "new_user_sudo" := by
      decide
    have hval := overlay_field_value (fun r => r.new_user_sudo) "NEW_USER_SUDO"
      "new_user_sudo" (envMapping.take 9) (envMapping.drop 10) rfl env r0 r2 v
      (some (pyParseBool v)) henv
      (fun rm => ⟨{ rm with new_user_sudo := some (pyParseBool v) },
        assign_new_user_sudo_eq rm v, rfl⟩)
      (fun p hp r1 r3 u ha =>
        ((assign_mapping_preserves p (hall p hp).1 r1 r3 u
          ha).2.2.2.2.2.2.2.2.2.2.1) (hall p hp).2)
      hov
    rw [hcfg]
    show (r2.new_user_sudo).getD true = pyParseBool v
    have hval2 : r2.new_user_sudo = _ := hval
    rw [hval2]
    rfl
  · intro v henv
    have hall : ∀ q ∈ envMapping.drop 11, q ∈ envMapping ∧
        q.2 ≠ "ssh_import_ids" := by
      decide
    have hval := overlay_field_value (fun r => r.ssh_import_ids)
      "SSH_IMPORT_IDS" "ssh_import_ids" (envMapping.take 10)
      (envMapping.drop 11) rfl env r0 r2 v (some (pyParseList v)) henv
      (fun rm => ⟨{ rm with ssh_import_ids := some (pyParseList v) },
        assign_ssh_import_ids_eq rm v, rfl⟩)
      (fun p hp r1 r3 u ha =>
        ((assign_mapping_preserves p (hall p hp).1 r1 r3 u
          ha).2.2.2.2.2.2.2.2.2.2.2.1) (hall p hp).2)
      hov
    rw [hcfg]
    show (r2.ssh_import_ids).getD [] = pyParseList v
    have hval2 : r2.ssh_import_ids = _ := hval
    rw [hval2]
    rfl
  · intro v henv
    have hall : ∀ q ∈ envMapping.drop 12, q ∈ envMapping ∧
        q.2 ≠ "ssh_authorized_keys" := by
      decide
    have hval := overlay_field_value (fun r => r.ssh_authorized_keys)
      "SSH_AUTHORIZED_KEYS" "ssh_authorized_keys" (envMapping.take 11)
      (envMapping.drop 12) rfl env r0 r2 v (some (pyParseList v)) henv
      (fun rm => ⟨{ rm with ssh_authorized_keys := some (pyParseList v) },
        assign_ssh_authorized_keys_eq rm v, rfl⟩)
      (fun p hp r1 r3 u ha =>
        ((assign_mapping_preserves p (hall p hp).1 r1 r3 u
          ha).2.2.2.2.2.2.2.2.2.2.2.2.1) (hall p hp).2)
      hov
    rw [hcfg]
    show (r2.ssh_authorized_keys).getD [] = pyParseList v
    have hval2 : r2.ssh_authorized_keys = _ := hval
    rw [hval2]
    rfl
  · intro v henv
    have hall : ∀ q ∈ envMapping.drop 13, q ∈ envMapping ∧
        q.2 ≠ "ssh_authorized_keys_urls" := by
      decide
    have hval := overlay_field_value (fun r => r.ssh_authorized_keys_urls)
      "SSH_AUTHORIZED_KEYS_URLS" "ssh_authorized_keys_urls"
      (envMapping.take 12) (envMapping.drop 13) rfl env r0 r2 v
      (some (pyParseList v)) henv
      (fun rm => ⟨{ rm with ssh_authorized_keys_urls := some (pyParseList v) },
        assign_ssh_authorized_keys_urls_eq rm v, rfl⟩)
      (fun p hp r1 r3 u ha =>
        ((assign_mapping_preserves p (hall p hp).1 r1 r3 u
          ha).2.2.2.2.2.2.2.2.2.2.2.2.2.1) (hall p hp).2)
      hov
    rw [hcfg]
    show (r2.ssh_authorized_keys_urls).getD [] = pyParseList v
    have hval2 : r2.ssh_authorized_keys_urls = _ := hval
    rw [hval2]
    rfl
  · intro v henv
    have hall : ∀ q ∈ envMapping.drop 14, q ∈ envMapping ∧
        q.2 ≠ "permit_root_login" := by
      decide
    have hval := overlay_field_value (fun r => r.permit_root_login)
      "PERMIT_ROOT_LOGIN" "permit_root_login" (envMapping.take 13)
      (envMapping.drop 14) rfl env r0 r2 v (some v) henv
      (fun rm => ⟨{ rm with permit_root_login := some v },
        assign_permit_root_login_eq rm v, rfl⟩)
      (fun p hp r1 r3 u ha =>
        ((assign_mapping_preserves p (hall p hp).1 r1 r3 u
          ha).2.2.2.2.2.2.2.2.2.2.2.2.2.2.1) (hall p hp).2)
      hov
    rw [hcfg]
    show (r2.permit_root_login).getD "prohibit-password" = v
    have hval2 : r2.permit_root_login = _ := hval
    rw [hval2]
    rfl
  · intro v henv
    have hall : ∀ q ∈ envMapping.drop 15, q ∈ envMapping ∧
        q.2 ≠ "password_auth" := by
      decide
    have hval := overlay_field_value (fun r => r.password_auth) "PASSWORD_AUTH"
      "password_auth" (envMapping.take 14) (envMapping.drop 15) rfl env r0 r2 v
      (some (pyParseBool v)) henv
      (fun rm => ⟨{ rm with password_auth := some (pyParseBool v) },
        assign_password_auth_eq rm v, rfl⟩)
      (fun p hp r1 r3 u ha =>
        ((assign_mapping_preserves p (hall p hp).1 r1 r3 u
          ha).2.2.2.2.2.2.2.2.2.2.2.2.2.2.2) (hall p hp).2)
      hov
    rw [hcfg]
    show (r2.password_auth).getD false = pyParseBool v
    have hval2 : r2.password_auth = _ := hval
    rw [hval2]
    rfl
  · intro v henv
    have hall : ∀ q ∈ envMapping.drop 16, q ∈ envMapping ∧
        q.2 ≠ "ci_datasources" := by
      decide
    have hval := overlay_field_value (fun r => r.ci_datasources)
      "CI_DATASOURCES" "ci_datasources" (envMapping.take 15)
      (envMapping.drop 16) rfl env r0 r2 v (some (pyParseList v)) henv
      (fun rm => ⟨{ rm with ci_datasources := some (pyParseList v) },
        assign_ci_datasources_eq rm v, rfl⟩)
      (fun p hp r1 r3 u ha =>
        ((assign_mapping_preserves p (hall p hp).1 r1 r3 u
          ha).2.2.2.2.2.2.2.1) (hall p hp).2)
      hov
    rw [hcfg]
    show (r2.ci_datasources).getD ["ConfigDrive", "NoCloud", "Ec2"] = pyParseList v
    have hval2 : r2.ci_datasources = _ := hval
    rw [hval2]
    rfl

/-- Witness for C7: a file line `HOSTNAME=fromfile` together with an
environment assignment `HOSTNAME=fromenv` loads hostname `fromenv`. -/
theorem env_overrides_file_witness :
    ({ defaultConfig with hostname := "fromenv" } : ZFSConfig).hostname =
      "fromenv" :=
  (env_overrides_file ["HOSTNAME=fromfile"]
    (fun k => if k = "HOSTNAME" then some "fromenv" else none)
    { defaultConfig with hostname := "fromenv" } (by decide)).2.1
    "fromenv" (by decide)

/-! ### C1: the serialization round trip

First, correctness of decimal integer printing and reparsing. -/

theorem digitChar_spec : ∀ d, d < 10 →
    (Nat.digitChar d).isDigit = true ∧ (Nat.digitChar d).toNat = 48 + d := by
  decide

theorem digitsToNat_append_singleton (l : List Char) (c : Char) :
    digitsToNat (l ++ [c]) = 10 * digitsToNat l + (c.toNat - 48) := by
  unfold digitsToNat
  rw [List.foldl_append]
  rfl

theorem toDigitsCore_spec : ∀ (fuel n : Nat) (ds : List Char), n < fuel →
    ∃ pre : List Char, Nat.toDigitsCore 10 fuel n ds = pre ++ ds ∧ pre ≠ [] ∧
      pre.all Char.isDigit = true ∧ digitsToNat pre = n := by
  intro fuel
  induction fuel with
  | zero => intro n ds h; exact absurd h (Nat.not_lt_zero n)
  | succ fuel ih =>
    intro n ds h
    have hmod : n % 10 < 10 := Nat.mod_lt _ (by decide)
    by_cases h10 : n / 10 = 0
    · have hn : n < 10 := (Nat.div_eq_zero_iff (by decide)).mp h10
      refine ⟨[Nat.digitChar (n % 10)], ?_, by simp, ?_, ?_⟩
      · simp only [Nat.toDigitsCore, h10, if_true]
        rfl
      · simp [(digitChar_spec _ hmod).1]
      · show digitsToNat ([] ++ [Nat.digitChar (n % 10)]) = n
        rw [digitsToNat_append_singleton, (digitChar_spec _ hmod).2]
        have := Nat.mod_eq_of_lt hn
        simp [digitsToNat]
        omega
    · have hpos : 0 < n := by
        rcases Nat.eq_zero_or_pos n with rfl | hp
        · simp at h10
        · exact hp
      have hlt : n / 10 < fuel := by
        have h1 : n / 10 < n := Nat.div_lt_self hpos (by decide)
        omega
      obtain ⟨pre, hEq, hne, hdig, hval⟩ := ih (n / 10) (Nat.digitChar (n % 10) :: ds) hlt
      refine ⟨pre ++ [Nat.digitChar (n % 10)], ?_, by simp [hne], ?_, ?_⟩
      · simp only [Nat.toDigitsCore, h10, if_false]
        rw [hEq]
        simp
      · simp [List.all_append, hdig, (digitChar_spec _ hmod).1]
      · rw [digitsToNat_append_singleton, hval, (digitChar_spec _ hmod).2]
        have := Nat.div_add_mod n 10
        omega

theorem natRepr_spec (n : Nat) :
    (Nat.repr n).data ≠ [] ∧ (Nat.repr n).data.all Char.isDigit = true ∧
      digitsToNat (Nat.repr n).data = n := by
  obtain ⟨pre, hEq, hne, hdig, hval⟩ :=
    toDigitsCore_spec (n + 1) n [] (Nat.lt_succ_self n)
  have hdata : (Nat.repr n).data = pre := by
    show (Nat.toDigits 10 n).asString.data = pre
    unfold Nat.toDigits
    rw [hEq]
    simp [List.asString]
  rw [hdata]
  exact ⟨hne, hdig, hval⟩

theorem isDigit_toNat {c : Char} (h : c.isDigit = true) :
    48 ≤ c.toNat ∧ c.toNat ≤ 57 := by
  simp only [Char.isDigit, Bool.and_eq_true, decide_eq_true_eq] at h
  obtain ⟨h1, h2⟩ := h
  exact ⟨h1, h2⟩

theorem digit_not_pyspace {c : Char} (h : c.isDigit = true) :
    isPySpace c = false := by
  obtain ⟨h1, h2⟩ := isDigit_toNat h
  unfold isPySpace
  simp only [Bool.or_eq_false_iff, Bool.and_eq_false_iff,
    decide_eq_false_iff_not, not_le]
  omega

theorem dropWhile_eq_self_of_all {p : Char → Bool} {l : List Char}
    (h : ∀ c ∈ l, p c = false) : l.dropWhile p = l := by
  cases l with
  | nil => rfl
  | cons c cs =>
    rw [List.dropWhile_cons, h c (List.mem_cons_self _ _)]
    simp

theorem trimP_eq_self {p : Char → Bool} {l : List Char}
    (h : ∀ c ∈ l, p c = false) : trimP p l = l := by
  unfold trimP trimLeftP trimRightP
  rw [dropWhile_eq_self_of_all h,
    dropWhile_eq_self_of_all (fun c hc => h c (List.mem_reverse.mp hc)),
    List.reverse_reverse]

theorem pyParseInt_digits {l : List Char} (hne : l ≠ [])
    (hdig : l.all Char.isDigit = true) :
    pyParseInt (String.mk l) = .ok ((digitsToNat l : Nat) : Int) := by
  have hns : ∀ c ∈ l, isPySpace c = false := fun c hc =>
    digit_not_pyspace (List.all_eq_true.mp hdig c hc)
  have htrim : trimP isPySpace (String.mk l).data = l := trimP_eq_self hns
  unfold pyParseInt
  rw [htrim]
  cases l with
  | nil => exact absurd rfl hne
  | cons c cs =>
    have hcdig : c.isDigit = true := List.all_eq_true.mp hdig c
      (List.mem_cons_self _ _)
    have hc1 : c ≠ '-' := by intro hcc; rw [hcc] at hcdig; cases hcdig
    have hc2 : c ≠ '+' := by intro hcc; rw [hcc] at hcdig; cases hcdig
    have hstep : (match c :: cs with
        | '-' :: rest =>
          if rest ≠ [] && rest.all Char.isDigit then
            Except.ok (-(digitsToNat rest : Int))
          else Except.error ("invalid literal for int with base 10: " ++ String.mk (c :: cs))
        | '+' :: rest =>
          if rest ≠ [] && rest.all Char.isDigit then
            Except.ok ((digitsToNat rest : Int))
          else Except.error ("invalid literal for int with base 10: " ++ String.mk (c :: cs))
        | t =>
          if t ≠ [] && t.all Char.isDigit then
            Except.ok ((digitsToNat t : Int))
          else Except.error ("invalid literal for int with base 10: " ++ String.mk (c :: cs))) =
        if (c :: cs) ≠ [] && (c :: cs).all Char.isDigit then
          Except.ok ((digitsToNat (c :: cs) : Int))
        else Except.error ("invalid literal for int with base 10: " ++ String.mk (c :: cs)) := by
      split
      · next heq =>
        exfalso
        rw [List.cons.injEq] at heq
        exact hc1 heq.1
      · next heq =>
        exfalso
        rw [List.cons.injEq] at heq
        exact hc2 heq.1
      · rfl
    rw [hstep]
    simp [hdig]

theorem pyParseInt_toString (i : Int) : pyParseInt (toString i) = .ok i := by
  cases i with
  | ofNat n =>
    obtain ⟨hne, hdig, hval⟩ := natRepr_spec n
    have hmk : toString (Int.ofNat n) = String.mk (Nat.repr n).data := rfl
    rw [hmk, pyParseInt_digits hne hdig, hval]
    rfl
  | negSucc m =>
    obtain ⟨hne, hdig, hval⟩ := natRepr_spec (m + 1)
    have hdata : (toString (Int.negSucc m)).data = '-' :: (Nat.repr (m + 1)).data := by
      show (Int.repr (Int.negSucc m)).data = _
      unfold Int.repr
      rfl
    have hns : ∀ c ∈ (toString (Int.negSucc m)).data, isPySpace c = false := by
      rw [hdata]
      intro c hc
      rcases List.mem_cons.mp hc with rfl | hc2
      · decide
      · exact digit_not_pyspace (List.all_eq_true.mp hdig c hc2)
    have htrim : trimP isPySpace (toString (Int.negSucc m)).data =
        '-' :: (Nat.repr (m + 1)).data := by
      rw [trimP_eq_self hns, hdata]
    unfold pyParseInt
    rw [htrim]
    show (if (Nat.repr (m + 1)).data ≠ [] && (Nat.repr (m + 1)).data.all Char.isDigit
        then Except.ok (-(digitsToNat (Nat.repr (m + 1)).data : Int))
        else Except.error _) = Except.ok (Int.negSucc m)
    rw [hval, if_pos (by simp [hne, hdig])]
    exact congrArg Except.ok (by rw [Int.negSucc_eq]; push_cast; ring)

/-! Splitting/joining round trips for the list fields. -/

theorem splitP_ne_nil (p : Char → Bool) (l : List Char) : splitP p l ≠ [] := by
  induction l with
  | nil => simp [splitP]
  | cons c cs ih =>
    have h0 : splitP p (c :: cs) =
        if p c then [] :: splitP p cs
        else match splitP p cs with
          | [] => [[c]]
          | t :: ts => (c :: t) :: ts := rfl
    rw [h0]
    split
    · simp
    · split <;> simp

theorem splitP_cons_sep {p : Char → Bool} {c : Char} {l : List Char}
    (h : p c = true) : splitP p (c :: l) = [] :: splitP p l := by
  have h0 : splitP p (c :: l) =
      if p c then [] :: splitP p l
      else match splitP p l with
        | [] => [[c]]
        | t :: ts => (c :: t) :: ts := rfl
  rw [h0, if_pos h]

theorem splitP_cons_nosep {p : Char → Bool} {c : Char} {l : List Char}
    (h : p c = false) :
    splitP p (c :: l) = (c :: (splitP p l).headI) :: (splitP p l).tail := by
  have h0 : splitP p (c :: l) =
      if p c then [] :: splitP p l
      else match splitP p l with
        | [] => [[c]]
        | t :: ts => (c :: t) :: ts := rfl
  rw [h0, if_neg (by simp [h])]
  cases hs : splitP p l with
  | nil => exact absurd hs (splitP_ne_nil p l)
  | cons t ts => simp [List.headI]

theorem splitP_append_left {p : Char → Bool} {a : List Char} (b : List Char)
    (h : ∀ c ∈ a, p c = false) :
    splitP p (a ++ b) = (a ++ (splitP p b).headI) :: (splitP p b).tail := by
  induction a with
  | nil =>
    cases hs : splitP p b with
    | nil => exact absurd hs (splitP_ne_nil p b)
    | cons t ts => simp [List.headI, hs]
  | cons c a2 ih =>
    rw [List.cons_append,
      splitP_cons_nosep (h c (List.mem_cons_self _ _)),
      ih (fun c2 hc2 => h c2 (List.mem_cons_of_mem _ hc2))]
    simp [List.headI]

theorem splitP_join {p : Char → Bool} {sep : Char} (hsep : p sep = true) :
    ∀ es : List (List Char), es ≠ [] → (∀ e ∈ es, ∀ c ∈ e, p c = false) →
    splitP p (joinChars sep es) = es := by
  intro es
  induction es with
  | nil => intro h; exact absurd rfl h
  | cons e rest ih =>
    intro _ hfree
    cases rest with
    | nil =>
      show splitP p e = [e]
      have h2 := splitP_append_left (p := p) []
        (fun c hc => hfree e (List.mem_cons_self _ _) c hc)
      rw [List.append_nil] at h2
      rw [h2]
      simp [splitP, List.headI]
    | cons e2 rest2 =>
      show splitP p (e ++ sep :: joinChars sep (e2 :: rest2)) = e :: e2 :: rest2
      rw [splitP_append_left (p := p) (sep :: joinChars sep (e2 :: rest2))
        (fun c hc => hfree e (List.mem_cons_self _ _) c hc),
        splitP_cons_sep hsep,
        ih (by simp) (fun e3 he3 => hfree e3 (List.mem_cons_of_mem _ he3))]
      simp [List.headI]

theorem wsTokens_join {es : List (List Char)}
    (h : ∀ e ∈ es, e ≠ [] ∧ ∀ c ∈ e, isPySpace c = false) :
    wsTokens (joinChars ' ' es) = es := by
  cases es with
  | nil => rfl
  | cons e rest =>
    unfold wsTokens
    rw [splitP_join (by decide) (e :: rest) (by simp)
      (fun e2 he2 c hc => (h e2 he2).2 c hc)]
    rw [List.filter_eq_self.mpr ?_]
    intro a ha
    simp [(h a ha).1]

theorem str_data_append (a b : String) : (a ++ b).data = a.data ++ b.data := rfl

theorem joinSep_data (sep : Char) (es : List String) :
    (joinSep sep es).data = joinChars sep (es.map String.data) := rfl

theorem pyParseList_ws_join (es : List String)
    (hes : ∀ e ∈ es, e.data ≠ [] ∧ (∀ c ∈ e.data, isPySpace c = false) ∧
      trimP isQuoteChar e.data = e.data)
    (hwrap : ¬((joinSep ' ' es).data.head? = some '[' ∧
      (joinSep ' ' es).data.getLast? = some ']')) :
    pyParseList (joinSep ' ' es) = es := by
  cases es with
  | nil => rfl
  | cons e rest =>
    have hed := hes e (List.mem_cons_self _ _)
    have hne : (joinSep ' ' (e :: rest)).data ≠ [] := by
      rw [joinSep_data]
      cases rest with
      | nil => exact hed.1
      | cons e2 r2 =>
        show e.data ++ _ ≠ []
        simp [hed.1]
    have hvne : joinSep ' ' (e :: rest) ≠ "" := fun hh =>
      hne (str_empty_iff.mp hh)
    unfold pyParseList
    rw [if_neg hvne]
    have hcond : ((joinSep ' ' (e :: rest)).data.head? = some '[' &&
        (joinSep ' ' (e :: rest)).data.getLast? = some ']') = false := by
      by_cases hA : (joinSep ' ' (e :: rest)).data.head? = some '['
      · by_cases hB : (joinSep ' ' (e :: rest)).data.getLast? = some ']'
        · exact absurd ⟨hA, hB⟩ hwrap
        · simp [hB]
      · simp [hA]
    rw [hcond]
    simp only [Bool.false_eq_true, if_false]
    unfold wsItems
    rw [joinSep_data,
      wsTokens_join (by
        intro d hd
        obtain ⟨e2, he2, rfl⟩ := List.mem_map.mp hd
        exact ⟨(hes e2 he2).1, (hes e2 he2).2.1⟩)]
    rw [List.filter_eq_self.mpr ?_]
    · rw [List.map_map]
      have hid : ∀ e2 ∈ (e :: rest),
          ((fun i => String.mk (trimP isQuoteChar (trimP isPySpace i))) ∘
            String.data) e2 = id e2 := by
        intro e2 he2
        show String.mk (trimP isQuoteChar (trimP isPySpace e2.data)) = e2
        rw [trimP_eq_self (hes e2 he2).2.1, (hes e2 he2).2.2]
      rw [List.map_congr_left hid, List.map_id]
    · intro a ha
      obtain ⟨e2, he2, rfl⟩ := List.mem_map.mp ha
      rw [trimP_eq_self (hes e2 he2).2.1]
      simp [(hes e2 he2).1]

theorem pyParseList_comma_join (es : List String)
    (hes : ∀ e ∈ es, e.data ≠ [] ∧ trimP isPySpace e.data = e.data ∧
      trimP isQuoteChar e.data = e.data ∧ ∀ c ∈ e.data, ¬(c = ',')) :
    pyParseList ("[" ++ joinSep ',' es ++ "]") = es := by
  cases es with
  | nil => rfl
  | cons e rest =>
    have hdata : ("[" ++ joinSep ',' (e :: rest) ++ "]").data =
        '[' :: (joinChars ',' ((e :: rest).map String.data) ++ [']']) := rfl
    have hvne : ("[" ++ joinSep ',' (e :: rest) ++ "]") ≠ "" := by
      intro hh
      have := str_empty_iff.mp hh
      rw [hdata] at this
      cases this
    unfold pyParseList
    rw [if_neg hvne]
    have hA : ("[" ++ joinSep ',' (e :: rest) ++ "]").data.head? = some '[' := by
      rw [hdata]; rfl
    have hB : ("[" ++ joinSep ',' (e :: rest) ++ "]").data.getLast? =
        some ']' := by
      rw [hdata, show '[' :: (joinChars ',' ((e :: rest).map String.data) ++ [']']) =
        ('[' :: joinChars ',' ((e :: rest).map String.data)) ++ [']'] by simp]
      exact List.getLast?_concat _
    rw [hA, hB]
    simp only [decide_True, Bool.and_self, if_true]
    unfold commaItems
    rw [hdata]
    have hinner : ((('[' :: (joinChars ',' ((e :: rest).map String.data) ++
        [']'])).drop 1).dropLast = joinChars ',' ((e :: rest).map String.data)) := by
      simp
    rw [hinner]
    rw [splitP_join (p := fun c => c = ',') (by simp) ((e :: rest).map String.data)
      (by simp)
      (by
        intro d hd c hc
        obtain ⟨e2, he2, rfl⟩ := List.mem_map.mp hd
        simp [(hes e2 he2).2.2.2 c hc])]
    rw [List.filter_eq_self.mpr ?_]
    · rw [List.map_map]
      have hid : ∀ e2 ∈ (e :: rest),
          ((fun i => String.mk (trimP isQuoteChar (trimP isPySpace i))) ∘
            String.data) e2 = id e2 := by
        intro e2 he2
        show String.mk (trimP isQuoteChar (trimP isPySpace e2.data)) = e2
        rw [(hes e2 he2).2.1, (hes e2 he2).2.2.1]
      rw [List.map_congr_left hid, List.map_id]
    · intro a ha
      obtain ⟨e2, he2, rfl⟩ := List.mem_map.mp ha
      rw [(hes e2 he2).2.1]
      simp [(hes e2 he2).1]

theorem pyParseBool_serBool (b : Bool) : pyParseBool (serBool b) = b := by
  cases b <;> decide

theorem etf_disk : envToFieldName "DISK" = some "disk" := rfl
theorem etf_hostname : envToFieldName "HOSTNAME" = some "hostname" := rfl
theorem etf_tz : envToFieldName "TZ" = some "timezone" := rfl
theorem etf_pool_r : envToFieldName "POOL_R" = some "pool_root" := rfl
theorem etf_pool_b : envToFieldName "POOL_B" = some "pool_boot" := rfl
theorem etf_arc : envToFieldName "ARC_MAX_MB" = some "arc_max_mb" := rfl
theorem etf_encrypt : envToFieldName "ENCRYPT" = some "encrypt" := rfl
theorem etf_force : envToFieldName "FORCE" = some "force" := rfl
theorem etf_new_user : envToFieldName "NEW_USER" = some "new_user" := rfl
theorem etf_new_user_sudo :
    envToFieldName "NEW_USER_SUDO" = some "new_user_sudo" := rfl
theorem etf_ssh_import_ids :
    envToFieldName "SSH_IMPORT_IDS" = some "ssh_import_ids" := rfl
theorem etf_ssh_authorized_keys :
    envToFieldName "SSH_AUTHORIZED_KEYS" = some "ssh_authorized_keys" := rfl
theorem etf_ssh_authorized_keys_urls :
    envToFieldName "SSH_AUTHORIZED_KEYS_URLS" =
      some "ssh_authorized_keys_urls" := rfl
theorem etf_permit :
    envToFieldName "PERMIT_ROOT_LOGIN" = some "permit_root_login" := rfl
theorem etf_password :
    envToFieldName "PASSWORD_AUTH" = some "password_auth" := rfl
theorem etf_ci : envToFieldName "CI_DATASOURCES" = some "ci_datasources" := rfl

/-- C1 (amended): serializing with `to_env_dict` and re-coercing every
produced string through the loading coercion (`_parse_value` per field)
reproduces a valid configuration in all fields — provided `new_user` is not
the empty string, each space-joined ssh list has elements that are nonempty,
free of whitespace and unchanged by quote-stripping, with the joined form
not bracket-wrapped, and each `ci_datasources` element is nonempty,
unchanged by whitespace-trimming and quote-stripping, and comma-free. The
claim fails without these conditions (see the counterexample with
`new_user`). -/
theorem to_env_dict_round_trip (c : ZFSConfig)
    (hvalid : mkZFSConfig c = .ok c)
    (hnu : c.new_user ≠ some "")
    (hsi : ∀ e ∈ c.ssh_import_ids, e.data ≠ [] ∧
      (∀ ch ∈ e.data, isPySpace ch = false) ∧
      trimP isQuoteChar e.data = e.data)
    (hsiw : ¬((joinSep ' ' c.ssh_import_ids).data.head? = some '[' ∧
      (joinSep ' ' c.ssh_import_ids).data.getLast? = some ']'))
    (hsak : ∀ e ∈ c.ssh_authorized_keys, e.data ≠ [] ∧
      (∀ ch ∈ e.data, isPySpace ch = false) ∧
      trimP isQuoteChar e.data = e.data)
    (hsakw : ¬((joinSep ' ' c.ssh_authorized_keys).data.head? = some '[' ∧
      (joinSep ' ' c.ssh_authorized_keys).data.getLast? = some ']'))
    (hsaku : ∀ e ∈ c.ssh_authorized_keys_urls, e.data ≠ [] ∧
      (∀ ch ∈ e.data, isPySpace ch = false) ∧
      trimP isQuoteChar e.data = e.data)
    (hsakuw : ¬((joinSep ' ' c.ssh_authorized_keys_urls).data.head? = some '[' ∧
      (joinSep ' ' c.ssh_authorized_keys_urls).data.getLast? = some ']'))
    (hci : ∀ e ∈ c.ci_datasources, e.data ≠ [] ∧
      trimP isPySpace e.data = e.data ∧ trimP isQuoteChar e.data = e.data ∧
      ∀ ch ∈ e.data, ¬(ch = ',')) :
    reloadFromEnvDict c = .ok c := by
  have h_si := pyParseList_ws_join c.ssh_import_ids hsi hsiw
  have h_sak := pyParseList_ws_join c.ssh_authorized_keys hsak hsakw
  have h_saku := pyParseList_ws_join c.ssh_authorized_keys_urls hsaku hsakuw
  have h_ci := pyParseList_comma_join c.ci_datasources hci
  have h_nu : (if c.new_user.getD "" = "" then (none : Option String)
      else some (c.new_user.getD "")) = c.new_user := by
    cases hh : c.new_user with
    | none => simp
    | some s =>
      have hs : s ≠ "" := fun he => hnu (by rw [hh, he])
      simp [hs]
  have hload : loadPairs (toEnvDict c) {} = .ok
      { disk := some c.disk, hostname := some c.hostname,
        timezone := some c.timezone, pool_root := some c.pool_root,
        pool_boot := some c.pool_boot, arc_max_mb := some c.arc_max_mb,
        encrypt := some c.encrypt, ci_datasources := some c.ci_datasources,
        force := some c.force, new_user := some c.new_user,
        new_user_sudo := some c.new_user_sudo,
        ssh_import_ids := some c.ssh_import_ids,
        ssh_authorized_keys := some c.ssh_authorized_keys,
        ssh_authorized_keys_urls := some c.ssh_authorized_keys_urls,
        permit_root_login := some c.permit_root_login,
        password_auth := some c.password_auth } := by
    simp only [toEnvDict, loadPairs, etf_disk, etf_hostname, etf_tz,
      etf_pool_r, etf_pool_b, etf_arc, etf_encrypt, etf_force, etf_new_user,
      etf_new_user_sudo, etf_ssh_import_ids, etf_ssh_authorized_keys,
      etf_ssh_authorized_keys_urls, etf_permit, etf_password, etf_ci,
      assign_disk_eq, assign_hostname_eq, assign_timezone_eq,
      assign_pool_root_eq, assign_pool_boot_eq, assign_arc_eq,
      assign_encrypt_eq, assign_force_eq, assign_new_user_eq,
      assign_new_user_sudo_eq, assign_ssh_import_ids_eq,
      assign_ssh_authorized_keys_eq, assign_ssh_authorized_keys_urls_eq,
      assign_permit_root_login_eq, assign_password_auth_eq,
      assign_ci_datasources_eq, pyParseInt_toString, Except.map,
      pyParseBool_serBool, h_si, h_sak, h_saku, h_ci, h_nu]
  unfold reloadFromEnvDict
  rw [hload]
  exact hvalid

/-- Witness for C1: a configuration with a nonempty ssh import list, a
named user and encryption enabled survives the round trip unchanged. -/
theorem to_env_dict_round_trip_witness :
    reloadFromEnvDict { defaultConfig with
      ssh_import_ids := ["gh:user1", "gh:user2"], new_user := some "bob",
      encrypt := true } =
      .ok { defaultConfig with
        ssh_import_ids := ["gh:user1", "gh:user2"], new_user := some "bob",
        encrypt := true } :=
  to_env_dict_round_trip _ (by decide) (by decide) (by decide) (by decide)
    (by decide) (by decide) (by decide) (by decide) (by decide)

/-- Counterexample to C1 as stated: the configuration with `new_user` set to
the empty string is valid (construction succeeds), but serializing it gives
`NEW_USER=` and reloading coerces that back to an absent user, so the round
trip does not reproduce it. -/
theorem round_trip_counterexample :
    mkZFSConfig { defaultConfig with new_user := some "" } =
      .ok { defaultConfig with new_user := some "" } ∧
    reloadFromEnvDict { defaultConfig with new_user := some "" } =
      .ok defaultConfig ∧
    ({ defaultConfig with new_user := some "" } : ZFSConfig) ≠ defaultConfig := by
  refine ⟨by decide, by decide, by decide⟩

end RescueInstall

